import Mathlib

/-! osgEarth feature-stencil model source and KML placemark builder

A shallow embedding of

* `src/osgPlugins/model_feature_stencil/FeatureStencilModelSource.cpp`
  (`FeatureStencilModelSource`, its `BuildData`, and
  `FeatureStencilModelSourceFactory`), and
* `src/osgEarthDrivers/kml/KML_Placemark.cpp` (`KML_Placemark::build`).

Conventions of the embedding:

* a C++ `int` is an `Int`; an `int` operation whose result is not representable
  (undefined behaviour in C++) makes the enclosing operation return `none`;
* a `double` is a rational number: the code only stores, negates, halves and
  doubles such values and no statement below depends on rounding;
* a pointer that may be null is an `Option`; dereferencing a null pointer makes
  the enclosing operation return `none`;
* objects are values; the factory-created sources are told apart by their
  constructor arguments;
* classes of the toolkit that are declared outside the two source files
  (filters, scene-graph nodes, the stencil-volume node, configuration) are
  either parameters collected in `Host` or small records of the observations
  the code makes of them.
-/

namespace FeatureStencil

/-! ## Machine integers -/

/-- Largest value of a 32-bit `int`. -/
def INT_MAX : Int := 2147483647

/-- Smallest value of a 32-bit `int`. -/
def INT_MIN : Int := -2147483648

/-- Whether an integer is representable as an `int`. -/
def inIntRange (v : Int) : Bool := decide (INT_MIN ≤ v) && decide (v ≤ INT_MAX)

/-- Addition of two `int`s; `none` when the sum overflows. -/
def addInt (a b : Int) : Option Int :=
  if inIntRange (a + b) then some (a + b) else none

/-! ## Constants of `FeatureStencilModelSource.cpp` -/

/-- The macro `PROP_EXTRUSION_DISTANCE`. -/
def PROP_EXTRUSION_DISTANCE : String := "extrusion_distance"

/-- The macro `PROP_DENSIFICATION_THRESH`. -/
def PROP_DENSIFICATION_THRESH : String := "densification_threshold"

/-- The macro `DEFAULT_EXTRUSION_DISTANCE`. -/
def DEFAULT_EXTRUSION_DISTANCE : ℚ := 300000

/-- The macro `DEFAULT_DENSIFICATION_THRESHOLD`. -/
def DEFAULT_DENSIFICATION_THRESHOLD : ℚ := 1000000

/-- The macro `RENDER_BIN_START`. -/
def RENDER_BIN_START : Int := 80000

/-! ## Collaborating types observed by the model source -/

/-- Modelled from the spec: `osgEarth::optional<T>` (declared in `osgEarth/Common`,
which is not among the sources). A value is either explicitly set or "unset" while
still carrying a default; `get`/`value` read the stored value either way. -/
structure optional (α : Type) where
  set : Bool
  value : α
  defaultValue : α

/-- Modelled from the spec: construction of an `optional` from a single value
records that value as the default and leaves the optional unset ("the extrusion
distance remains unset until `initialize(map)` picks a default"). -/
def optional.ofDefault {α : Type} (d : α) : optional α :=
  { set := false, value := d, defaultValue := d }

/-- Modelled from the spec: assigning a value to an `optional` sets it. -/
def optional.assign {α : Type} (o : optional α) (v : α) : optional α :=
  { o with set := true, value := v }

/-- The accessor `optional::isSet`. -/
def optional.isSet {α : Type} (o : optional α) : Bool := o.set

/-- The accessor `optional::get`. -/
def optional.get {α : Type} (o : optional α) : α := o.value

/-- The queries the constructor makes of an `osgEarth::Config` (declared outside the
sources): `hasValue(key)`, `value<double>(key, fallback)` and
`child(name).attr(key)`. -/
structure Config where
  hasValue : String → Bool
  valueDouble : String → ℚ → ℚ
  childAttr : String → String → String

/-- A feature profile (spatial reference and extent of a feature source); `tag` stands
for its content. -/
structure FeatureProfile where
  tag : Nat
  deriving DecidableEq, Repr

/-- A feature source: the code only asks for its feature profile. -/
structure FeatureSource where
  featureProfile : FeatureProfile
  deriving DecidableEq, Repr

/-- The `PluginOptions` handed to the constructor: its `config()` together with what
the base class `FeatureModelSource` (outside the sources) derives from it and exposes
as `minRange()`, `maxRange()`, the `_lit` member and `getFeatureSource()` (a pointer
that may be null). -/
structure PluginOptions where
  config : Config
  minRange : optional ℚ
  maxRange : optional ℚ
  lit : Bool
  featureSource : Option FeatureSource

/-- A spatial reference system, as far as the code observes it; `tag` stands for the
rest of the object. -/
structure SpatialReference where
  isGeographic : Bool
  tag : Nat
  deriving DecidableEq, Repr

/-- A map profile: the code only asks for its SRS. -/
structure Profile where
  srs : SpatialReference
  deriving DecidableEq, Repr

/-- An `osgEarth::Map`, as far as the code observes it. -/
structure Map where
  isGeocentric : Bool
  profile : Profile
  deriving DecidableEq, Repr

/-! ## `FeatureStencilModelSource`: members, constructor, `initialize` -/

/-- The members of a `FeatureStencilModelSource`, including those inherited from
`FeatureModelSource` that the code reads (`options`, `lit`, `minRange`,
`maxRange`, `featureSource`). -/
structure FeatureStencilModelSource where
  options : PluginOptions
  sourceId : Int
  renderBinStart : Int
  map : Option Map
  extrusionDistance : optional ℚ
  densificationThresh : ℚ
  showVolumes : Bool
  lit : Bool
  minRange : optional ℚ
  maxRange : optional ℚ
  featureSource : Option FeatureSource

/-- The constructor `FeatureStencilModelSource(options, renderBinStart, sourceId)`.
Its write to the process-wide display settings (minimum stencil bits raised to 8)
touches no member and is left out. -/
def FeatureStencilModelSource.new (options : PluginOptions) (renderBinStart : Int)
    (sourceId : Int) : FeatureStencilModelSource :=
  let conf := options.config
  let extrusion0 : optional ℚ := optional.ofDefault DEFAULT_EXTRUSION_DISTANCE
  let extrusion1 :=
    if conf.hasValue PROP_EXTRUSION_DISTANCE then
      extrusion0.assign (conf.valueDouble PROP_EXTRUSION_DISTANCE DEFAULT_EXTRUSION_DISTANCE)
    else extrusion0
  let densification := conf.valueDouble PROP_DENSIFICATION_THRESH DEFAULT_DENSIFICATION_THRESHOLD
  let showVolumes := decide (conf.childAttr "debug" "show_volumes" = "true")
  { options := options
    sourceId := sourceId
    renderBinStart := renderBinStart
    map := none
    extrusionDistance := extrusion1
    densificationThresh := densification
    showVolumes := showVolumes
    lit := if showVolumes then false else options.lit
    minRange := options.minRange
    maxRange := options.maxRange
    featureSource := options.featureSource }

/-- The method `initialize(referenceURI, map)`: stores the map and, when the
extrusion distance is not set, picks a default from the kind of map. -/
def FeatureStencilModelSource.initialize (self : FeatureStencilModelSource) (map : Map) :
    FeatureStencilModelSource :=
  let self1 := { self with map := some map }
  if !self1.extrusionDistance.isSet then
    if map.isGeocentric then
      { self1 with extrusionDistance := self1.extrusionDistance.assign 300000 }
    else if map.profile.srs.isGeographic then
      { self1 with extrusionDistance := self1.extrusionDistance.assign 5 }
    else
      { self1 with extrusionDistance := self1.extrusionDistance.assign 12000 }
  else self1

/-! ## `FeatureStencilModelSourceFactory` -/

/-- A `std::map<int, ref_ptr<FeatureStencilModelSource>>`: keys are unique, a stored
pointer may be null. -/
abbrev SourceMap := List (Int × Option FeatureStencilModelSource)

/-- The lookup `std::map::find`: the stored pointer for a key, if the key is present. -/
def SourceMap.find : SourceMap → Int → Option (Option FeatureStencilModelSource)
  | [], _ => none
  | (k, v) :: rest, key => if k = key then some v else SourceMap.find rest key

/-- The assignment `m[key] = value`: overwrites the entry of a present key, adds
an entry otherwise. -/
def SourceMap.assign : SourceMap → Int → Option FeatureStencilModelSource → SourceMap
  | [], key, value => [(key, value)]
  | (k, v) :: rest, key, value =>
    if k = key then (k, value) :: rest else (k, v) :: SourceMap.assign rest key value

/-- The read `m[key]`: returns the stored pointer; an absent key is first inserted
with a null pointer. -/
def SourceMap.index (m : SourceMap) (key : Int) : Option FeatureStencilModelSource × SourceMap :=
  match SourceMap.find m key with
  | some v => (v, m)
  | none => (none, SourceMap.assign m key none)

/-- The members of a `FeatureStencilModelSourceFactory` (the mutex aside). -/
structure FeatureStencilModelSourceFactory where
  renderBinStart : Int
  sourceId : Int
  sourceMap : SourceMap

/-- The constructor of the factory. Its initialiser list sets `_renderBinStart` only:
`_sourceId` is never initialised, so the value it holds in a fresh factory is
indeterminate and is a parameter here. -/
def FeatureStencilModelSourceFactory.new (indeterminateSourceId : Int) :
    FeatureStencilModelSourceFactory :=
  { renderBinStart := RENDER_BIN_START
    sourceId := indeterminateSourceId
    sourceMap := [] }

/-- The method `create(options)`: constructs a source with the current render-bin
start and source id, advances the render-bin start by 1000, registers the source
under the current id and increments the id. `none` when one of the two `int`
updates overflows. -/
def FeatureStencilModelSourceFactory.create (self : FeatureStencilModelSourceFactory)
    (options : PluginOptions) :
    Option (FeatureStencilModelSource × FeatureStencilModelSourceFactory) :=
  let obj := FeatureStencilModelSource.new options self.renderBinStart self.sourceId
  match addInt self.renderBinStart 1000 with
  | none => none
  | some renderBinStart1 =>
    match addInt self.sourceId 1 with
    | none => none
    | some sourceId1 =>
      some (obj,
        { renderBinStart := renderBinStart1
          sourceId := sourceId1
          sourceMap := SourceMap.assign self.sourceMap self.sourceId (some obj) })

/-- The method `get(sourceId)`: `_sourceMap[sourceId].get()`. -/
def FeatureStencilModelSourceFactory.get (self : FeatureStencilModelSourceFactory)
    (sourceId : Int) : Option FeatureStencilModelSource × FeatureStencilModelSourceFactory :=
  let r := SourceMap.index self.sourceMap sourceId
  (r.1, { self with sourceMap := r.2 })

/-! ## File names (`osgDB`) and `sscanf` -/

/-- The extension the plugin registers with `supportsExtension`. -/
def pluginExtension : List Char := "osgearth_model_feature_stencil".data

/-- Path separators of `osgDB` (`/` and the backslash). -/
def isPathSeparator (c : Char) : Bool := c = '/' || c = Char.ofNat 92

/-- The characters after the last `.` of a name (the whole name when it has no dot). -/
def afterLastDot (fileName : List Char) : List Char :=
  (fileName.reverse.takeWhile (fun c => c ≠ '.')).reverse

/-- The characters before the last `.` of a name. -/
def beforeLastDot (fileName : List Char) : List Char :=
  (fileName.reverse.dropWhile (fun c => c ≠ '.')).tail.reverse

/-- Whether `osgDB` finds an extension: the name has a dot and no path separator
follows the last dot. -/
def hasExtension (fileName : List Char) : Bool :=
  fileName.contains '.' && !(afterLastDot fileName).any isPathSeparator

/-- The library function `osgDB::getLowerCaseFileExtension`. -/
def getLowerCaseFileExtension (fileName : List Char) : List Char :=
  if hasExtension fileName then (afterLastDot fileName).map Char.toLower else []

/-- The library function `osgDB::getNameLessExtension`. -/
def getNameLessExtension (fileName : List Char) : List Char :=
  if hasExtension fileName then beforeLastDot fileName else fileName

/-- The method `ReaderWriter::acceptsExtension` of a reader-writer whose only
supported extension is `pluginExtension`. -/
def acceptsExtension (extension : List Char) : Bool :=
  decide (extension.map Char.toLower = pluginExtension)

/-- White space as skipped by `sscanf` (the C `isspace` set). -/
def isSpace (c : Char) : Bool :=
  c = ' ' || (decide (9 ≤ c.toNat) && decide (c.toNat ≤ 13))

/-- Reads decimal digits from the front of the input, accumulating their value. -/
def scanDigits : List Char → Nat → Nat
  | [], acc => acc
  | c :: cs, acc => if c.isDigit then scanDigits cs (acc * 10 + (c.toNat - 48)) else acc

/-- Reads a non-empty run of decimal digits; `none` when the input does not start
with a digit. -/
def scanUnsigned : List Char → Option Nat
  | [] => none
  | c :: cs => if c.isDigit then some (scanDigits (c :: cs) 0) else none

/-- The integer matched by the conversion `%d`: white space is skipped, an optional
sign is read, then a non-empty run of digits; `none` on a matching failure. -/
def scanInt (s : List Char) : Option Int :=
  match s.dropWhile isSpace with
  | [] => none
  | c :: cs =>
    if c = '-' then (scanUnsigned cs).map (fun n => -Int.ofNat n)
    else if c = '+' then (scanUnsigned cs).map (fun n => Int.ofNat n)
    else (scanUnsigned (c :: cs)).map (fun n => Int.ofNat n)

/-- The call `sscanf(s, "%d", &target)`, returning the value of `target` afterwards:
unchanged on a matching failure, the matched integer when it is representable;
`none` when it is not (undefined behaviour). -/
def sscanf_d (s : List Char) (target : Int) : Option Int :=
  match scanInt s with
  | none => some target
  | some v => if inIntRange v then some v else none

/-- The decimal digit character of a number below ten. -/
def digitChar (d : Nat) : Char := Char.ofNat (48 + d)

/-- A natural number written in decimal. -/
def natDecimal (n : Nat) : List Char :=
  if n = 0 then ['0'] else (Nat.digits 10 n).reverse.map digitChar

/-- An integer written in decimal, with a leading `-` when negative. -/
def intDecimal (k : Int) : List Char :=
  if k < 0 then '-' :: natDecimal k.natAbs else natDecimal k.natAbs

/-- The pseudo file name `k.osgearth_model_feature_stencil`. -/
def nodeFileName (k : Int) : String :=
  String.mk (intDecimal k ++ '.' :: pluginExtension)

/-! ## `readObject` and `readNode` -/

/-- The enumeration `osgDB::ReaderWriter::ReadResult::ReadStatus`, as far as used. -/
inductive ReadStatus
  | FILE_NOT_HANDLED
  | FILE_LOADED
  deriving DecidableEq, Repr

/-- An `osgDB::ReaderWriter::ReadResult`: a status and an object pointer. -/
structure ReadResult where
  status : ReadStatus
  object : Option FeatureStencilModelSource

/-- The constructor `ReadResult(ReadStatus)`. -/
def ReadResult.ofStatus (status : ReadStatus) : ReadResult :=
  { status := status, object := none }

/-- The constructor `ReadResult(osg::Object*)`, whose status defaults to `FILE_LOADED`. -/
def ReadResult.ofObject (object : Option FeatureStencilModelSource) : ReadResult :=
  { status := ReadStatus.FILE_LOADED, object := object }

/-- The method `readObject(file_name, options)`. -/
def FeatureStencilModelSourceFactory.readObject (self : FeatureStencilModelSourceFactory)
    (file_name : String) (options : PluginOptions) :
    Option (ReadResult × FeatureStencilModelSourceFactory) :=
  if !acceptsExtension (getLowerCaseFileExtension file_name.data) then
    some (ReadResult.ofStatus ReadStatus.FILE_NOT_HANDLED, self)
  else
    match self.create options with
    | none => none
    | some (obj, self1) => some (ReadResult.ofObject (some obj), self1)

/-- The method `readNode(fileName, options)`. -/
def FeatureStencilModelSourceFactory.readNode (self : FeatureStencilModelSourceFactory)
    (fileName : String) : Option (ReadResult × FeatureStencilModelSourceFactory) :=
  if !acceptsExtension (getLowerCaseFileExtension fileName.data) then
    some (ReadResult.ofStatus ReadStatus.FILE_NOT_HANDLED, self)
  else
    let stripped := getNameLessExtension fileName.data
    match sscanf_d stripped 0 with
    | none => none
    | some sourceId =>
      let r := self.get sourceId
      some (ReadResult.ofObject r.1, r.2)

/-- One call on the factory. -/
inductive FactoryCall
  | create (options : PluginOptions)
  | get (sourceId : Int)
  | readObject (file_name : String) (options : PluginOptions)
  | readNode (fileName : String)

/-- The factory after one call; `none` when the call has undefined behaviour. -/
def FeatureStencilModelSourceFactory.step (self : FeatureStencilModelSourceFactory) :
    FactoryCall → Option FeatureStencilModelSourceFactory
  | FactoryCall.create options => (self.create options).map Prod.snd
  | FactoryCall.get sourceId => some (self.get sourceId).2
  | FactoryCall.readObject file_name options => (self.readObject file_name options).map Prod.snd
  | FactoryCall.readNode fileName => (self.readNode fileName).map Prod.snd

/-- The factory after a sequence of calls. -/
def FeatureStencilModelSourceFactory.run (self : FeatureStencilModelSourceFactory) :
    List FactoryCall → Option FeatureStencilModelSourceFactory
  | [] => some self
  | c :: cs =>
    match self.step c with
    | none => none
    | some self1 => FeatureStencilModelSourceFactory.run self1 cs

/-! ## Features, styles, filters and scene-graph nodes -/

/-- Modelled from the spec: the type tag of a geometry ("point, line string, polygon,
and multi-variants", each carrying a component-type tag). The source names
`TYPE_LINESTRING` and `TYPE_POLYGON`. -/
inductive GeometryType
  | TYPE_UNKNOWN
  | TYPE_POINTSET
  | TYPE_LINESTRING
  | TYPE_RING
  | TYPE_POLYGON
  deriving DecidableEq, Repr

/-- A geometry: what `getComponentType()` answers; `tag` stands for its coordinates. -/
structure Geometry where
  componentType : GeometryType
  tag : Nat
  deriving DecidableEq, Repr

/-- A feature: `getGeometry()` may be null; `tag` stands for the attributes. -/
structure Feature where
  geometry : Option Geometry
  tag : Nat
  deriving DecidableEq, Repr

/-- A `FeatureList`. -/
abbrev FeatureList := List Feature

/-- A transformation matrix; `tag` stands for its entries. -/
structure Matrix where
  tag : Nat
  deriving DecidableEq, Repr

/-- A `FilterContext`, as far as the code observes it: the profile it is given, whether
it has a reference frame, and the inverse of that frame. -/
structure FilterContext where
  profile : Option FeatureProfile
  hasReferenceFrame : Bool
  inverseReferenceFrame : Matrix
  deriving DecidableEq, Repr

/-- A default-constructed `FilterContext`: no profile, no reference frame. -/
def FilterContext.new : FilterContext :=
  { profile := none, hasReferenceFrame := false, inverseReferenceFrame := { tag := 0 } }

/-- A colour `osg::Vec4ub`. -/
structure Vec4ub where
  r : Nat
  g : Nat
  b : Nat
  a : Nat
  deriving DecidableEq, Repr

/-- A line-cap style; `tag` names the style. -/
structure LineCap where
  tag : Nat
  deriving DecidableEq, Repr

/-- A `Style`, as far as the code observes it: `name()`, the stroke width and line cap
of its line symbolizer, and `getColor(type)`. -/
structure Style where
  name : String
  strokeWidth : ℚ
  lineCap : LineCap
  getColor : GeometryType → Vec4ub

/-- A stencil volume as returned by `StencilUtils::createVolume`; `tag` stands for its
mesh. -/
structure Volume where
  tag : Nat
  deriving DecidableEq, Repr

/-- The scene-graph subtrees the method builds around the volumes: the `osg::Group` of
volumes, possibly under an `osg::MatrixTransform`, possibly under an `osg::LOD` with one
child and its range. -/
inductive VolumesNode
  | group (children : List Volume)
  | matrixTransform (matrix : Matrix) (child : VolumesNode)
  | lod (child : VolumesNode) (min : ℚ) (max : ℚ)

/-- Modelled from the spec: a `StencilVolumeNode` (declared in `StencilUtils.h`, which is
not among the sources): a colour, a base render bin, and the volumes added so far. A
freshly constructed node has neither colour nor bin set and holds no volumes. -/
structure StencilVolumeNode where
  color : Option Vec4ub
  baseRenderBin : Option Int
  volumes : List VolumesNode

/-- The toolkit operations the method calls and that are declared outside the sources.
Each filter `push` may rewrite the feature list it is given by reference and returns
a context; `createVolume` may return null; `nextFreeBin` is the value returned
by `StencilVolumeNode::setBaseRenderBin`. -/
structure Host where
  bufferPush : ℚ → LineCap → FeatureList → FilterContext → FeatureList × FilterContext
  transformPush :
    SpatialReference → Bool → FeatureList → FilterContext → FeatureList × FilterContext
  resamplePush : ℚ → ℚ → ℚ → FeatureList → FilterContext → FeatureList × FilterContext
  createVolume : Option Geometry → ℚ → ℚ → FilterContext → Option Volume
  nextFreeBin : Int → Int

/-- The constructor `StencilVolumeNode()`. -/
def StencilVolumeNode.new : StencilVolumeNode :=
  { color := none, baseRenderBin := none, volumes := [] }

/-- The method `StencilVolumeNode::setColor`. -/
def StencilVolumeNode.setColor (self : StencilVolumeNode) (color : Vec4ub) : StencilVolumeNode :=
  { self with color := some color }

/-- Modelled from the spec: `StencilVolumeNode::setBaseRenderBin` takes the given bin as
the base of the node and returns the next free bin. -/
def StencilVolumeNode.setBaseRenderBin (host : Host) (self : StencilVolumeNode) (bin : Int) :
    Int × StencilVolumeNode :=
  (host.nextFreeBin bin, { self with baseRenderBin := some bin })

/-- The method `StencilVolumeNode::addVolumes`. -/
def StencilVolumeNode.addVolumes (self : StencilVolumeNode) (node : VolumesNode) :
    StencilVolumeNode :=
  { self with volumes := self.volumes ++ [node] }

/-! ## `BuildData` and `renderFeaturesForStyle` -/

/-- The struct `BuildData`: the next render bin and the style groups. A stored
`StencilVolumeNode*` is the node at that position of the list. -/
structure BuildData where
  renderBin : Int
  styleGroups : List (String × StencilVolumeNode)

/-- The constructor `BuildData(renderBinStart)`. -/
def BuildData.new (renderBinStart : Int) : BuildData :=
  { renderBin := renderBinStart, styleGroups := [] }

/-- The search loop of `BuildData::getStyleNode` over the groups from position `i` on. -/
def BuildData.findStyle (styleName : String) : List (String × StencilVolumeNode) → Nat → Option Nat
  | [], _ => none
  | g :: rest, i => if g.1 = styleName then some i else BuildData.findStyle styleName rest (i + 1)

/-- The method `BuildData::getStyleNode`: the position of the first group with that style
name (`out_svn` and `true`), or `none` (`false`). -/
def BuildData.getStyleNode (self : BuildData) (styleName : String) : Option Nat :=
  BuildData.findStyle styleName self.styleGroups 0

/-- The method `createBuildData()`. -/
def FeatureStencilModelSource.createBuildData (self : FeatureStencilModelSource) : BuildData :=
  BuildData.new self.renderBinStart

/-- The scan at the top of `renderFeaturesForStyle` that computes `hasLines`: it stops at
the first feature with a geometry of component type line string. -/
def hasLineData : FeatureList → Bool
  | [] => false
  | f :: rest =>
    match f.geometry with
    | some g => if g.componentType = GeometryType.TYPE_LINESTRING then true else hasLineData rest
    | none => hasLineData rest

/-- A filter applied by `renderFeaturesForStyle`, with its settings. -/
inductive FilterUse
  | buffer (distance : ℚ) (capStyle : LineCap)
  | transform (srs : SpatialReference) (isGeocentric : Bool)
  | resample (minLength : ℚ) (maxLength : ℚ) (perturbationThreshold : ℚ)
  deriving DecidableEq

/-- The features and context after the filter chain, and the filters applied in order. -/
structure Filtered where
  features : FeatureList
  context : FilterContext
  applied : List FilterUse

/-- The filter chain of `renderFeaturesForStyle`: buffer when there are lines, transform
always, resample on a geocentric map. -/
def applyFilters (host : Host) (self : FeatureStencilModelSource) (map : Map)
    (featureSource : FeatureSource) (style : Style) (features : FeatureList) : Filtered :=
  let hasLines := hasLineData features
  let isGeocentric := map.isGeocentric
  let context0 : FilterContext := { FilterContext.new with profile := some featureSource.featureProfile }
  let s1 : Filtered :=
    if hasLines then
      let r := host.bufferPush ((1 / 2) * style.strokeWidth) style.lineCap features context0
      { features := r.1, context := r.2,
        applied := [FilterUse.buffer ((1 / 2) * style.strokeWidth) style.lineCap] }
    else { features := features, context := context0, applied := [] }
  let r2 := host.transformPush map.profile.srs isGeocentric s1.features s1.context
  let s2 : Filtered :=
    { features := r2.1, context := r2.2,
      applied := s1.applied ++ [FilterUse.transform map.profile.srs isGeocentric] }
  if isGeocentric then
    let r3 := host.resamplePush 0 self.densificationThresh (1 / 10) s2.features s2.context
    { features := r3.1, context := r3.2,
      applied := s2.applied ++ [FilterUse.resample 0 self.densificationThresh (1 / 10)] }
  else s2

/-- The extrusion loop: `volumes` stays null until a feature yields a volume, then
collects the volumes in order. -/
def extrudeLoop (host : Host) (extrusionDistance : ℚ) (context : FilterContext) :
    FeatureList → Option (List Volume) → Option (List Volume)
  | [], volumes => volumes
  | f :: rest, volumes =>
    match host.createVolume f.geometry (-extrusionDistance) (extrusionDistance * 2) context with
    | some volume =>
      extrudeLoop host extrusionDistance context rest (some (volumes.getD [] ++ [volume]))
    | none => extrudeLoop host extrusionDistance context rest volumes

/-- The wrapping of a non-null `volumes` group: under a matrix transform when the context
has a reference frame, then under an LOD when a view range is configured. -/
def wrapVolumes (self : FeatureStencilModelSource) (context : FilterContext)
    (volumes : List Volume) : VolumesNode :=
  let v0 := VolumesNode.group volumes
  let v1 :=
    if context.hasReferenceFrame then VolumesNode.matrixTransform context.inverseReferenceFrame v0
    else v0
  if self.minRange.isSet || self.maxRange.isSet then
    VolumesNode.lod v1 self.minRange.value self.maxRange.value
  else v1

/-- The volumes `renderFeaturesForStyle` builds for a style and feature list, already
wrapped; `none` when no feature yields a volume. -/
def buildVolumes (host : Host) (self : FeatureStencilModelSource) (map : Map)
    (featureSource : FeatureSource) (style : Style) (features : FeatureList) :
    Option VolumesNode :=
  let filtered := applyFilters host self map featureSource style features
  match extrudeLoop host self.extrusionDistance.get filtered.context filtered.features none with
  | none => none
  | some volumes => some (wrapVolumes self filtered.context volumes)

/-- The pointer `renderFeaturesForStyle` returns when it is not null: the wrapped
volumes themselves, or the style node at a position of `BuildData::_styleGroups`. -/
inductive ResultNode
  | volumes (node : VolumesNode)
  | styleNode (position : Nat)

/-- What a call of `renderFeaturesForStyle` leaves behind: the returned pointer, the
`BuildData`, the feature list (it is passed by reference and rewritten by the filters),
the filters it applied and the style nodes it constructed. -/
structure Outcome where
  result : Option ResultNode
  buildData : BuildData
  features : FeatureList
  applied : List FilterUse
  created : List StencilVolumeNode

/-- Adds volumes to the style node at a position of the style groups. -/
def addVolumesAt (groups : List (String × StencilVolumeNode)) (position : Nat)
    (node : VolumesNode) : List (String × StencilVolumeNode) :=
  groups.modify (fun g => (g.1, g.2.addVolumes node)) position

/-- The method `renderFeaturesForStyle(style, features, data)`; `none` when `_map` or
the feature source is null. -/
def FeatureStencilModelSource.renderFeaturesForStyle (host : Host)
    (self : FeatureStencilModelSource) (style : Style) (features : FeatureList)
    (buildData : BuildData) : Option Outcome :=
  let styleNode := buildData.getStyleNode style.name
  let hasLines := hasLineData features
  match self.map, self.featureSource with
  | some map, some featureSource =>
    let applied := (applyFilters host self map featureSource style features).applied
    let features1 := (applyFilters host self map featureSource style features).features
    match buildVolumes host self map featureSource style features with
    | none =>
      some { result := none, buildData := buildData, features := features1,
             applied := applied, created := [] }
    | some volumes =>
      if self.showVolumes then
        some { result := some (ResultNode.volumes volumes), buildData := buildData,
               features := features1, applied := applied, created := [] }
      else
        match styleNode with
        | none =>
          let node0 := StencilVolumeNode.new
          let maskColor :=
            style.getColor
              (if hasLines then GeometryType.TYPE_LINESTRING else GeometryType.TYPE_POLYGON)
          let node1 := node0.setColor maskColor
          let r := StencilVolumeNode.setBaseRenderBin host node1 buildData.renderBin
          let position := buildData.styleGroups.length
          let groups := buildData.styleGroups ++ [(style.name, r.2)]
          some { result := some (ResultNode.styleNode position),
                 buildData :=
                   { renderBin := r.1, styleGroups := addVolumesAt groups position volumes },
                 features := features1, applied := applied, created := [node0] }
        | some position =>
          some { result := none,
                 buildData := { buildData with
                   styleGroups := addVolumesAt buildData.styleGroups position volumes },
                 features := features1, applied := applied, created := [] }
  | _, _ => none

/-- A sequence of `renderFeaturesForStyle` calls on one `BuildData`: the returned
pointers in call order and the final `BuildData`. -/
def FeatureStencilModelSource.renderAll (host : Host) (self : FeatureStencilModelSource) :
    List (Style × FeatureList) → BuildData → Option (List (Option ResultNode) × BuildData)
  | [], buildData => some ([], buildData)
  | c :: cs, buildData =>
    match self.renderFeaturesForStyle host c.1 c.2 buildData with
    | none => none
    | some o =>
      match FeatureStencilModelSource.renderAll host self cs o.buildData with
      | none => none
      | some r => some (o.result :: r.1, r.2)

end FeatureStencil

namespace KML

/-! ## `KML_Placemark::build` -/

/-- The queries `build` makes of the placemark `Config`: `hasValue(key)` and
`value(key)`. -/
structure Config where
  hasValue : String → Bool
  value : String → String

/-- A point `osg::Vec3d`; default-constructed at the origin. -/
structure Vec3d where
  x : ℚ
  y : ℚ
  z : ℚ
  deriving DecidableEq

/-- The default constructor of `osg::Vec3d`. -/
def Vec3d.zero : Vec3d := { x := 0, y := 0, z := 0 }

/-- A `URI`; default-constructed empty. -/
structure URI where
  full : String
  deriving DecidableEq, Repr

/-- The default constructor of `URI`. -/
def URI.empty : URI := { full := "" }

/-- A `MarkerSymbol`: whether its `url()` is set; `tag` stands for the rest. -/
structure MarkerSymbol where
  urlIsSet : Bool
  tag : Nat
  deriving DecidableEq, Repr

/-- An `ExtrusionSymbol`; `tag` stands for its content. -/
structure ExtrusionSymbol where
  tag : Nat
  deriving DecidableEq, Repr

/-- The clamping modes of an `AltitudeSymbol`. -/
inductive Clamping
  | CLAMP_NONE
  | CLAMP_TO_TERRAIN
  | CLAMP_RELATIVE_TO_TERRAIN
  | CLAMP_ABSOLUTE
  deriving DecidableEq, Repr

/-- An `AltitudeSymbol`: its `clamping()`. -/
structure AltitudeSymbol where
  clamping : Clamping
  deriving DecidableEq, Repr

/-- A `Style`, as far as `build` observes it: the symbols `get<MarkerSymbol>()`,
`get<ExtrusionSymbol>()` and `get<AltitudeSymbol>()` find (null when absent); `tag`
stands for the rest. -/
structure Style where
  marker : Option MarkerSymbol
  extrusion : Option ExtrusionSymbol
  altitude : Option AltitudeSymbol
  tag : Nat
  deriving DecidableEq, Repr

/-- A default-constructed `Style`: no symbols. -/
def Style.new : Style := { marker := none, extrusion := none, altitude := none, tag := 0 }

/-- A `Geometry`, as far as `build` observes it: its point count `size()` and the centre
of its bounds; `tag` stands for the points. -/
structure Geometry where
  size : Nat
  boundsCenter : Vec3d
  tag : Nat
  deriving DecidableEq

/-- A map node; `tag` names it. -/
structure MapNode where
  tag : Nat
  deriving DecidableEq, Repr

/-- The two kinds of node `build` constructs. A `FeatureNode` records the feature
geometry, its style and whether it is draped; a `PlacemarkNode` records the constructor
arguments. -/
inductive Node
  | featureNode (mapNode : MapNode) (geometry : Geometry) (draped : Bool) (style : Style)
  | placemarkNode (mapNode : MapNode) (position : Vec3d) (iconURI : URI) (text : String)
      (style : Style)
  deriving DecidableEq

/-- An `osg::Group`: its children in the order they were added. -/
structure Group where
  children : List Node
  deriving DecidableEq

/-- The method `osg::Group::addChild`. -/
def Group.addChild (self : Group) (child : Node) : Group :=
  { children := self.children ++ [child] }

/-- A style sheet: `getStyle(url, false)` returns a style or null. -/
structure StyleSheet where
  getStyle : String → Option Style

/-- The `KMLContext`: the map node, the style sheet pointer (may be null) and the group
stack (top first). -/
structure KMLContext where
  mapNode : MapNode
  sheet : Option StyleSheet
  groupStack : List Group

/-- The collaborators of `build` that are declared outside the sources:
`KML_Geometry::build(conf, cx, style)`, which leaves a geometry pointer (maybe null) in
`_geom` and may rewrite the style it is given by reference (it is taken not to touch
the group stack), and `MarkerFactory::getRawURI`. -/
structure Collaborators where
  geometryBuild : Config → KMLContext → Style → Option Geometry × Style
  getRawURI : MarkerSymbol → URI

/-- Whether a pointer to a node points to a `FeatureNode`. -/
def Node.isFeatureNode : Node → Bool
  | Node.featureNode _ _ _ _ => true
  | Node.placemarkNode _ _ _ _ _ => false

/-- Whether a pointer to a node points to a `PlacemarkNode`. -/
def Node.isPlacemarkNode : Node → Bool
  | Node.featureNode _ _ _ _ => false
  | Node.placemarkNode _ _ _ _ _ => true

/-- Whether a node is a draped `FeatureNode`. -/
def Node.isDraped : Node → Bool
  | Node.featureNode _ _ draped _ => draped
  | Node.placemarkNode _ _ _ _ _ => false

/-- The style resolved at the top of `build`: the referenced style of the sheet when
the configuration has a `styleurl` and the sheet knows it, a default style otherwise;
`none` when the sheet pointer is null and is dereferenced. -/
def resolveStyle (conf : Config) (cx : KMLContext) : Option Style :=
  if conf.hasValue "styleurl" then
    match cx.sheet with
    | none => none
    | some sheet =>
      match sheet.getStyle (conf.value "styleurl") with
      | some ref_style => some ref_style
      | none => some Style.new
  else some Style.new

/-- The icon URI computed by `build`: the raw URI of the style's marker symbol when it
has one whose `url()` is set, an empty URI otherwise. -/
def iconURIOf (env : Collaborators) (style : Style) : URI :=
  match style.marker with
  | some marker => if marker.urlIsSet then env.getRawURI marker else URI.empty
  | none => URI.empty

/-- The text computed by `build`: the `name`, else the `description`, else `Unnamed`. -/
def textOf (conf : Config) : String :=
  if conf.hasValue "name" then conf.value "name"
  else if conf.hasValue "description" then conf.value "description"
  else "Unnamed"

/-- The position computed by `build`: the centre of the bounds of a valid geometry with
at least one point, the origin otherwise. -/
def positionOf (geom : Option Geometry) : Vec3d :=
  match geom with
  | some g => if g.size > 0 then g.boundsCenter else Vec3d.zero
  | none => Vec3d.zero

/-- The flag `draped` computed by `build`: no extrusion symbol, and an altitude symbol
clamping to terrain. -/
def drapedOf (style : Style) : Bool :=
  style.extrusion.isNone &&
    (match style.altitude with
     | some alt => decide (alt.clamping = Clamping.CLAMP_TO_TERRAIN)
     | none => false)

/-- The method `KML_Placemark::build(conf, cx)`, returning the context afterwards;
`none` when a null sheet is dereferenced or the group stack is empty. -/
def KML_Placemark.build (env : Collaborators) (conf : Config) (cx : KMLContext) :
    Option KMLContext :=
  match resolveStyle conf cx with
  | none => none
  | some style0 =>
    let iconURI := iconURIOf env style0
    let text := textOf conf
    let built := env.geometryBuild conf cx style0
    let geom := built.1
    let style := built.2
    let position := positionOf geom
    match cx.groupStack with
    | [] => none
    | top :: rest =>
      let top1 : Group :=
        match geom with
        | some g =>
          if g.size ≠ 1 then
            top.addChild (Node.featureNode cx.mapNode g (drapedOf style) style)
          else top
        | none => top
      let pmNode := Node.placemarkNode cx.mapNode position iconURI text style
      some { cx with groupStack := top1.addChild pmNode :: rest }

end KML

namespace FeatureStencil

/-! ## Concrete collaborators used to exercise the definitions -/

/-- A configuration with no values: every lookup answers the fallback. -/
def plainConfig : Config :=
  { hasValue := fun _ => false
    valueDouble := fun _ fallback => fallback
    childAttr := fun _ _ => "" }

/-- A configuration that only sets `debug.show_volumes` to `true`. -/
def showVolumesConfig : Config :=
  { hasValue := fun _ => false
    valueDouble := fun _ fallback => fallback
    childAttr := fun child key =>
      if child = "debug" ∧ key = "show_volumes" then "true" else "" }

/-- Plugin options over a given configuration: no view range, lit, a feature source. -/
def optionsOf (config : Config) : PluginOptions :=
  { config := config
    minRange := optional.ofDefault 0
    maxRange := optional.ofDefault 0
    lit := true
    featureSource := some { featureProfile := { tag := 0 } } }

/-- A projected (neither geocentric nor geographic) map. -/
def projectedMap : Map :=
  { isGeocentric := false, profile := { srs := { isGeographic := false, tag := 3857 } } }

/-- A host whose filters leave the features as they are, whose `createVolume` yields a
volume for every feature that has a geometry, and whose style nodes take one render
bin each. -/
def plainHost : Host :=
  { bufferPush := fun _ _ features context => (features, context)
    transformPush := fun _ _ features context => (features, context)
    resamplePush := fun _ _ _ features context => (features, context)
    createVolume := fun geometry _ _ _ => geometry.map (fun g => { tag := g.tag })
    nextFreeBin := fun bin => bin + 1 }

/-- A line-string feature turned into a polygon feature (geometry tag raised by 100);
any other feature as it is. -/
def bufferedFeature (f : Feature) : Feature :=
  match f.geometry with
  | some g =>
    if g.componentType = GeometryType.TYPE_LINESTRING then
      { geometry := some { componentType := GeometryType.TYPE_POLYGON, tag := g.tag + 100 },
        tag := f.tag }
    else f
  | none => f

/-- A host whose buffer filter turns every line string into a polygon, whose transform
filter sets up a reference frame with inverse matrix 9, and which otherwise behaves like
the plain host. -/
def framingHost : Host :=
  { bufferPush := fun _ _ features context => (features.map bufferedFeature, context)
    transformPush := fun _ _ features context =>
      (features, { context with hasReferenceFrame := true, inverseReferenceFrame := { tag := 9 } })
    resamplePush := fun _ _ _ features context => (features, context)
    createVolume := fun geometry _ _ _ => geometry.map (fun g => { tag := g.tag })
    nextFreeBin := fun bin => bin + 1 }

/-- Plugin options that set `debug.show_volumes` and a view range from 10 to 5000. -/
def rangedShowVolumesOptions : PluginOptions :=
  { config := showVolumesConfig
    minRange := (optional.ofDefault 0).assign 10
    maxRange := (optional.ofDefault 0).assign 5000
    lit := true
    featureSource := some { featureProfile := { tag := 0 } } }

/-- A style with a given name. -/
def styleNamed (name : String) : Style :=
  { name := name
    strokeWidth := 2
    lineCap := { tag := 0 }
    getColor := fun _ => { r := 255, g := 0, b := 0, a := 255 } }

/-- A feature list holding one polygon. -/
def onePolygon : FeatureList :=
  [{ geometry := some { componentType := GeometryType.TYPE_POLYGON, tag := 1 }, tag := 1 }]

/-- A feature list holding one line string. -/
def oneLine : FeatureList :=
  [{ geometry := some { componentType := GeometryType.TYPE_LINESTRING, tag := 2 }, tag := 2 }]

/-- Whether the filters of a host leave an empty feature list empty. -/
def Host.keepsEmpty (host : Host) : Prop :=
  (∀ srs geocentric context, (host.transformPush srs geocentric [] context).1 = []) ∧
  (∀ minLength maxLength threshold context,
    (host.resamplePush minLength maxLength threshold [] context).1 = [])

/-- The render bins taken by the style groups of a `BuildData`, in creation order. -/
def BuildData.assignedBins (self : BuildData) : List Int :=
  self.styleGroups.filterMap (fun g => g.2.baseRenderBin)

/-- The style names of the groups of a `BuildData`, in creation order. -/
def BuildData.styleNames (self : BuildData) : List String :=
  self.styleGroups.map (fun g => g.1)


/-- The source a factory constructs first when its id counter happens to start at 0. -/
def firstSource : FeatureStencilModelSource :=
  FeatureStencilModelSource.new (optionsOf plainConfig) 80000 0

/-- The factory after that first `create`. -/
def factoryWithOne : FeatureStencilModelSourceFactory :=
  { renderBinStart := 81000, sourceId := 1, sourceMap := [(0, some firstSource)] }

end FeatureStencil

namespace KML

/-! ## Concrete collaborators used to exercise `build` -/

/-- A placemark configuration without any value. -/
def emptyConfig : Config :=
  { hasValue := fun _ => false, value := fun _ => "" }

/-- Collaborators whose geometry builder yields a valid geometry with no points and adds
a clamp-to-terrain altitude symbol to the style. -/
def emptyGeometryCollaborators : Collaborators :=
  { geometryBuild := fun _ _ style =>
      (some { size := 0, boundsCenter := Vec3d.zero, tag := 0 },
       { style with altitude := some { clamping := Clamping.CLAMP_TO_TERRAIN } })
    getRawURI := fun _ => URI.empty }

/-- A context with one empty group on the stack and no style sheet. -/
def oneGroupContext : KMLContext :=
  { mapNode := { tag := 0 }, sheet := none, groupStack := [{ children := [] }] }

end KML

namespace FeatureStencil

/-! ## Bookkeeping of style names over a sequence of calls -/

/-- The style names known after a sequence of calls, starting from the names `seen`:
each name not yet known is appended. -/
def finalSeen : List String → List String → List String
  | seen, [] => seen
  | seen, n :: ns => if n ∈ seen then finalSeen seen ns else finalSeen (seen ++ [n]) ns

/-- For each call of a sequence, starting from the names `seen`: `none` when the style
name is already known, otherwise the position at which its new group is appended. -/
def firstSights : List String → List String → List (Option Nat)
  | _, [] => []
  | seen, n :: ns =>
    if n ∈ seen then none :: firstSights seen ns
    else some seen.length :: firstSights (seen ++ [n]) ns

/-- A sequence of calls with the polygon list under the given style names. -/
def polygonCalls (names : List String) : List (Style × FeatureList) :=
  names.map (fun n => (styleNamed n, onePolygon))

/-- Pairwise different style names: `n` strings of 0, 1, 2, ... letters `x`. -/
def distinctNames (n : Nat) : List String :=
  (List.range n).map (fun i => String.mk (List.replicate i 'x'))

/-- The source a factory whose id counter started at 0 constructs second. -/
def secondSource : FeatureStencilModelSource :=
  FeatureStencilModelSource.new (optionsOf plainConfig) 81000 1

/-- The first source after `initialize` with the projected map. -/
def firstReady : FeatureStencilModelSource :=
  FeatureStencilModelSource.initialize firstSource projectedMap

/-- The second source after `initialize` with the projected map. -/
def secondReady : FeatureStencilModelSource :=
  FeatureStencilModelSource.initialize secondSource projectedMap

/-- A source constructed with `debug.show_volumes` and a view range set, after
`initialize` with the projected map. -/
def rangedShowVolumesReady : FeatureStencilModelSource :=
  FeatureStencilModelSource.initialize
    (FeatureStencilModelSource.new rangedShowVolumesOptions 80000 0) projectedMap

/-- A source constructed with `debug.show_volumes` set, after `initialize` with the
projected map. -/
def showVolumesReady : FeatureStencilModelSource :=
  FeatureStencilModelSource.initialize
    (FeatureStencilModelSource.new (optionsOf showVolumesConfig) 80000 0) projectedMap


/-! ## Extrusion distance (constructor and `initialize`) -/

/-- C8: after construction followed by `initialize(map)`, the extrusion distance is the
configured `extrusion_distance` when the configuration has that value; otherwise it is
300000 on a geocentric map, 5 on a non-geocentric map with a geographic SRS, and 12000
on any other map. -/
theorem extrusionDistance_after_initialize (options : PluginOptions) (renderBinStart : Int)
    (sourceId : Int) (map : Map) :
    ( FeatureStencilModelSource.initialize
        (FeatureStencilModelSource.new options renderBinStart sourceId) map).extrusionDistance.get =
      (if options.config.hasValue PROP_EXTRUSION_DISTANCE then
        options.config.valueDouble PROP_EXTRUSION_DISTANCE DEFAULT_EXTRUSION_DISTANCE
      else if map.isGeocentric then 300000
      else if map.profile.srs.isGeographic then 5
      else 12000) := by
  unfold FeatureStencilModelSource.initialize FeatureStencilModelSource.new
  by_cases h : options.config.hasValue PROP_EXTRUSION_DISTANCE = true
  · simp [h, optional.assign, optional.ofDefault, optional.isSet, optional.get]
  · by_cases hg : map.isGeocentric = true
    · simp [h, hg, optional.assign, optional.ofDefault, optional.isSet, optional.get]
    · by_cases hgeo : map.profile.srs.isGeographic = true
      · simp [h, hg, hgeo, optional.assign, optional.ofDefault, optional.isSet, optional.get]
      · simp [h, hg, hgeo, optional.assign, optional.ofDefault, optional.isSet, optional.get]


/-! ## The filter chain and the two early exits of `renderFeaturesForStyle` -/

theorem hasLineData_iff (features : FeatureList) :
    hasLineData features = true ↔
      ∃ f ∈ features, ∃ g, f.geometry = some g ∧
        g.componentType = GeometryType.TYPE_LINESTRING := by
  induction features with
  | nil => simp [hasLineData]
  | cons f rest ih =>
    cases hg : f.geometry with
    | none => simp [hasLineData, hg, ih]
    | some g =>
      by_cases hc : g.componentType = GeometryType.TYPE_LINESTRING
      · simp [hasLineData, hg, hc]
      · simp [hasLineData, hg, hc, ih]

theorem applyFilters_buffer_iff (host : Host) (self : FeatureStencilModelSource) (map : Map)
    (featureSource : FeatureSource) (style : Style) (features : FeatureList) :
    (∃ d c, FilterUse.buffer d c ∈ (applyFilters host self map featureSource style features).applied)
      ↔ hasLineData features = true := by
  unfold applyFilters
  by_cases hl : hasLineData features = true <;> by_cases hg : map.isGeocentric = true <;>
    simp [hl, hg]

theorem render_applied (host : Host) (self : FeatureStencilModelSource) (style : Style)
    (features : FeatureList) (buildData : BuildData) (map : Map) (featureSource : FeatureSource)
    (hmap : self.map = some map) (hfs : self.featureSource = some featureSource) :
    ∃ o, self.renderFeaturesForStyle host style features buildData = some o ∧
      o.applied = (applyFilters host self map featureSource style features).applied ∧
      o.features = (applyFilters host self map featureSource style features).features := by
  unfold FeatureStencilModelSource.renderFeaturesForStyle
  simp only [hmap, hfs]
  cases buildVolumes host self map featureSource style features with
  | none => exact ⟨_, rfl, rfl, rfl⟩
  | some volumes =>
    by_cases hs : self.showVolumes = true
    · simp [hs]
    · cases hn : buildData.getStyleNode style.name with
      | none => simp [hs]
      | some p => simp [hs]

theorem applyFilters_buffer_settings (host : Host) (self : FeatureStencilModelSource) (map : Map)
    (featureSource : FeatureSource) (style : Style) (features : FeatureList) (d : ℚ)
    (c : LineCap)
    (h : FilterUse.buffer d c ∈
      (applyFilters host self map featureSource style features).applied) :
    d = (1 / 2) * style.strokeWidth ∧ c = style.lineCap := by
  unfold applyFilters at h
  by_cases hl : hasLineData features = true
  · by_cases hg : map.isGeocentric = true <;> simpa [hl, hg] using h
  · by_cases hg : map.isGeocentric = true <;> simp [hl, hg] at h

theorem applyFilters_features (host : Host) (self : FeatureStencilModelSource) (map : Map)
    (featureSource : FeatureSource) (style : Style) (features : FeatureList) :
    (applyFilters host self map featureSource style features).features =
      (let context0 : FilterContext :=
        { FilterContext.new with profile := some featureSource.featureProfile }
      let buffered :=
        if hasLineData features then
          host.bufferPush ((1 / 2) * style.strokeWidth) style.lineCap features context0
        else (features, context0)
      let transformed :=
        host.transformPush map.profile.srs map.isGeocentric buffered.1 buffered.2
      if map.isGeocentric then
        (host.resamplePush 0 self.densificationThresh (1 / 10) transformed.1 transformed.2).1
      else transformed.1) := by
  unfold applyFilters
  by_cases hl : hasLineData features = true <;> by_cases hg : map.isGeocentric = true <;>
    simp [hl, hg]

/-- C9: the `hasLines` flag is true exactly when some feature of the list has a geometry
of component type line string. A call of `renderFeaturesForStyle` (on a source with a map
and a feature source) applies the buffer filter exactly when the flag is true, with
distance half the stroke width and the cap style of the style: the feature list it leaves
behind is the list handed through the transform filter (and the resample filter on a
geocentric map) starting from the result of the host's buffer filter on the input when
the flag is true, and from the input itself when it is false. -/
theorem hasLines_iff_and_buffer_applied_iff (host : Host) (self : FeatureStencilModelSource)
    (style : Style) (features : FeatureList) (buildData : BuildData) (map : Map)
    (featureSource : FeatureSource)
    (hmap : self.map = some map) (hfs : self.featureSource = some featureSource) :
    (hasLineData features = true ↔
      ∃ f ∈ features, ∃ g, f.geometry = some g ∧
        g.componentType = GeometryType.TYPE_LINESTRING) ∧
    ∃ o, self.renderFeaturesForStyle host style features buildData = some o ∧
      ((∃ d c, FilterUse.buffer d c ∈ o.applied) ↔ hasLineData features = true) ∧
      (∀ d c, FilterUse.buffer d c ∈ o.applied →
        d = (1 / 2) * style.strokeWidth ∧ c = style.lineCap) ∧
      o.features =
        (let context0 : FilterContext :=
          { FilterContext.new with profile := some featureSource.featureProfile }
        let buffered :=
          if hasLineData features then
            host.bufferPush ((1 / 2) * style.strokeWidth) style.lineCap features context0
          else (features, context0)
        let transformed :=
          host.transformPush map.profile.srs map.isGeocentric buffered.1 buffered.2
        if map.isGeocentric then
          (host.resamplePush 0 self.densificationThresh (1 / 10) transformed.1 transformed.2).1
        else transformed.1) := by
  refine ⟨hasLineData_iff features, ?_⟩
  obtain ⟨o, ho, happ, hfeat⟩ :=
    render_applied host self style features buildData map featureSource hmap hfs
  refine ⟨o, ho, ?_, ?_, ?_⟩
  · rw [happ]
    exact applyFilters_buffer_iff host self map featureSource style features
  · intro d c hdc
    rw [happ] at hdc
    exact applyFilters_buffer_settings host self map featureSource style features d c hdc
  · rw [hfeat]
    exact applyFilters_features host self map featureSource style features

/-- Witness for C9: on an initialised source over a host whose buffer filter turns line
strings into polygons, a list with one line string sets the flag, and the list left
behind holds the buffered polygon. -/
theorem hasLines_iff_and_buffer_applied_iff_witness :
    hasLineData oneLine = true ∧
    ∃ o, firstReady.renderFeaturesForStyle framingHost (styleNamed "A") oneLine
          (BuildData.new 80000) = some o ∧
      (∃ d c, FilterUse.buffer d c ∈ o.applied) ∧
      o.features =
        [{ geometry := some { componentType := GeometryType.TYPE_POLYGON, tag := 102 },
           tag := 2 }] := by
  obtain ⟨hflag, o, ho, hiff, _, hfeat⟩ :=
    hasLines_iff_and_buffer_applied_iff framingHost firstReady (styleNamed "A") oneLine
      (BuildData.new 80000) projectedMap { featureProfile := { tag := 0 } } rfl rfl
  exact ⟨rfl, o, ho, hiff.mpr rfl, by rw [hfeat]; rfl⟩

theorem extrudeLoop_none (host : Host) (d : ℚ) (context : FilterContext) (features : FeatureList)
    (h : ∀ f ∈ features, host.createVolume f.geometry (-d) (d * 2) context = none) :
    extrudeLoop host d context features none = none := by
  induction features with
  | nil => rfl
  | cons f rest ih =>
    have hf := h f (List.mem_cons_self f rest)
    simp only [extrudeLoop, hf]
    exact ih (fun g hg => h g (List.mem_cons_of_mem f hg))

theorem applyFilters_nil (host : Host) (hkeep : host.keepsEmpty) (self : FeatureStencilModelSource)
    (map : Map) (featureSource : FeatureSource) (style : Style) :
    (applyFilters host self map featureSource style []).features = [] := by
  unfold applyFilters
  by_cases hg : map.isGeocentric = true
  · simp [hasLineData, hg, hkeep.1, hkeep.2]
  · simp [hasLineData, hg, hkeep.1]

theorem render_of_no_volume (host : Host) (self : FeatureStencilModelSource) (style : Style)
    (features : FeatureList) (buildData : BuildData) (map : Map) (featureSource : FeatureSource)
    (hmap : self.map = some map) (hfs : self.featureSource = some featureSource)
    (hnone : buildVolumes host self map featureSource style features = none) :
    ∃ o, self.renderFeaturesForStyle host style features buildData = some o ∧
      o.result = none ∧ o.buildData = buildData ∧ o.created = [] := by
  unfold FeatureStencilModelSource.renderFeaturesForStyle
  simp only [hmap, hfs, hnone]
  exact ⟨_, rfl, rfl, rfl, rfl⟩

/-- C6: on a source with a map and a feature source, `renderFeaturesForStyle` returns
nil, constructs no style node and leaves the `BuildData` as it was (same render-bin
counter, same style groups) whenever no feature of the filtered list yields a volume;
this is the case for an empty feature list when the filters leave an empty list empty. -/
theorem render_without_volume_is_nil (host : Host) (self : FeatureStencilModelSource)
    (style : Style) (features : FeatureList) (buildData : BuildData) (map : Map)
    (featureSource : FeatureSource)
    (hmap : self.map = some map) (hfs : self.featureSource = some featureSource)
    (hnone : (features = [] ∧ host.keepsEmpty) ∨
      ∀ f ∈ (applyFilters host self map featureSource style features).features,
        host.createVolume f.geometry (-self.extrusionDistance.get)
          (self.extrusionDistance.get * 2)
          (applyFilters host self map featureSource style features).context = none) :
    ∃ o, self.renderFeaturesForStyle host style features buildData = some o ∧
      o.result = none ∧ o.buildData = buildData ∧
      o.buildData.renderBin = buildData.renderBin ∧
      o.buildData.styleGroups = buildData.styleGroups ∧ o.created = [] := by
  have hbv : buildVolumes host self map featureSource style features = none := by
    unfold buildVolumes
    have hloop : extrudeLoop host self.extrusionDistance.get
        (applyFilters host self map featureSource style features).context
        (applyFilters host self map featureSource style features).features none = none := by
      rcases hnone with ⟨hnil, hkeep⟩ | hall
      · subst hnil
        rw [applyFilters_nil host hkeep]
        rfl
      · exact extrudeLoop_none host _ _ _ hall
    simp only [hloop]
  obtain ⟨o, ho, hr, hb, hc⟩ :=
    render_of_no_volume host self style features buildData map featureSource hmap hfs hbv
  exact ⟨o, ho, hr, hb, by rw [hb], by rw [hb], hc⟩

/-- Witness for C6: the empty feature list on an initialised source over the plain host. -/
theorem render_without_volume_is_nil_witness :
    ∃ o, firstReady.renderFeaturesForStyle plainHost (styleNamed "A") []
          (BuildData.new 80000) = some o ∧
      o.result = none ∧ o.buildData = BuildData.new 80000 ∧
      o.buildData.renderBin = (BuildData.new 80000).renderBin ∧
      o.buildData.styleGroups = (BuildData.new 80000).styleGroups ∧ o.created = [] :=
  render_without_volume_is_nil plainHost
    firstReady
    (styleNamed "A") [] (BuildData.new 80000) projectedMap
    { featureProfile := { tag := 0 } } rfl rfl
    (Or.inl ⟨rfl, ⟨fun _ _ _ => rfl, fun _ _ _ _ => rfl⟩⟩)

theorem extrudeLoop_eq (host : Host) (d : ℚ) (context : FilterContext) (features : FeatureList)
    (volumes : Option (List Volume)) :
    extrudeLoop host d context features volumes =
      (if features.filterMap (fun f => host.createVolume f.geometry (-d) (d * 2) context) = []
        then volumes
      else some (volumes.getD [] ++
        features.filterMap (fun f => host.createVolume f.geometry (-d) (d * 2) context))) := by
  induction features generalizing volumes with
  | nil => simp [extrudeLoop]
  | cons f rest ih =>
    cases hv : host.createVolume f.geometry (-d) (d * 2) context with
    | none => simp only [extrudeLoop, hv, List.filterMap_cons, ih]
    | some v =>
      simp only [extrudeLoop, hv, List.filterMap_cons, ih]
      by_cases hrest :
          rest.filterMap (fun f => host.createVolume f.geometry (-d) (d * 2) context) = []
      · simp [hrest]
      · simp [hrest]

/-- C7: the constructor sets `_showVolumes` exactly when `debug.show_volumes` is `true`
and `initialize` keeps it; on a source with `_showVolumes` set (and a map and a feature
source) `renderFeaturesForStyle` constructs no style node and leaves the `BuildData`
unchanged, never returns a style node, returns nil when no feature of the filtered list
yields a volume, and otherwise returns the group of the volumes `createVolume` yields for
the filtered features, in order, put under a matrix transform with the inverse reference
frame when the context has a reference frame, and that under an LOD node with the
configured ranges when a minimum or maximum range is set. -/
theorem render_showVolumes (host : Host) (self : FeatureStencilModelSource)
    (style : Style) (features : FeatureList) (buildData : BuildData) (map : Map)
    (featureSource : FeatureSource)
    (hmap : self.map = some map) (hfs : self.featureSource = some featureSource)
    (hshow : self.showVolumes = true) :
    (∀ options renderBinStart sourceId m,
      ( FeatureStencilModelSource.initialize
          (FeatureStencilModelSource.new options renderBinStart sourceId) m).showVolumes
        = decide (options.config.childAttr "debug" "show_volumes" = "true")) ∧
    ∃ o, self.renderFeaturesForStyle host style features buildData = some o ∧
      o.created = [] ∧ o.buildData = buildData ∧
      (∀ position, o.result ≠ some (ResultNode.styleNode position)) ∧
      o.result =
        (let context := (applyFilters host self map featureSource style features).context
        let volumes := o.features.filterMap (fun f =>
          host.createVolume f.geometry (-self.extrusionDistance.get)
            (self.extrusionDistance.get * 2) context)
        if volumes = [] then none
        else
          let framed :=
            if context.hasReferenceFrame then
              VolumesNode.matrixTransform context.inverseReferenceFrame
                (VolumesNode.group volumes)
            else VolumesNode.group volumes
          some (ResultNode.volumes
            (if self.minRange.isSet || self.maxRange.isSet then
              VolumesNode.lod framed self.minRange.value self.maxRange.value
            else framed))) := by
  constructor
  · intro options renderBinStart sourceId m
    unfold FeatureStencilModelSource.initialize FeatureStencilModelSource.new
    by_cases h : options.config.hasValue PROP_EXTRUSION_DISTANCE = true <;>
      by_cases hg : m.isGeocentric = true <;>
      by_cases hgeo : m.profile.srs.isGeographic = true <;>
      simp [h, hg, hgeo, optional.assign, optional.ofDefault, optional.isSet]
  · have hloop := extrudeLoop_eq host self.extrusionDistance.get
      (applyFilters host self map featureSource style features).context
      (applyFilters host self map featureSource style features).features none
    by_cases hnil : (applyFilters host self map featureSource style features).features.filterMap
        (fun f => host.createVolume f.geometry (-self.extrusionDistance.get)
          (self.extrusionDistance.get * 2)
          (applyFilters host self map featureSource style features).context) = []
    · rw [if_pos hnil] at hloop
      have hbv : buildVolumes host self map featureSource style features = none := by
        unfold buildVolumes
        simp only [hloop]
      unfold FeatureStencilModelSource.renderFeaturesForStyle
      simp only [hmap, hfs, hbv]
      refine ⟨_, rfl, rfl, rfl, by simp, ?_⟩
      simp only [hnil, if_true]
    · rw [if_neg hnil] at hloop
      have hbv : buildVolumes host self map featureSource style features =
          some (wrapVolumes self
            (applyFilters host self map featureSource style features).context
            ((applyFilters host self map featureSource style features).features.filterMap
              (fun f => host.createVolume f.geometry (-self.extrusionDistance.get)
                (self.extrusionDistance.get * 2)
                (applyFilters host self map featureSource style features).context))) := by
        unfold buildVolumes
        simp only [hloop, Option.getD_none, List.nil_append]
      unfold FeatureStencilModelSource.renderFeaturesForStyle
      simp only [hmap, hfs, hbv, hshow, if_true]
      refine ⟨_, rfl, rfl, rfl, by simp, ?_⟩
      simp only [hnil, if_false]
      rfl

/-- Witness for C7: one polygon on a source constructed with `debug.show_volumes` and a
view range, over a host whose transform filter sets up a reference frame: the result is
the volume group under a matrix transform under an LOD node. -/
theorem render_showVolumes_witness :
    ∃ o, rangedShowVolumesReady.renderFeaturesForStyle framingHost (styleNamed "A") onePolygon
          (BuildData.new 80000) = some o ∧
      o.created = [] ∧ o.buildData = BuildData.new 80000 ∧
      (∀ position, o.result ≠ some (ResultNode.styleNode position)) ∧
      o.result = some (ResultNode.volumes
        (VolumesNode.lod
          (VolumesNode.matrixTransform { tag := 9 } (VolumesNode.group [{ tag := 1 }]))
          10 5000)) := by
  obtain ⟨o, ho, hc, hb, hp, hv⟩ := (render_showVolumes framingHost rangedShowVolumesReady
    (styleNamed "A") onePolygon (BuildData.new 80000) projectedMap
    { featureProfile := { tag := 0 } } rfl rfl rfl).2
  have hfeat : o.features = onePolygon := by
    have hrun : rangedShowVolumesReady.renderFeaturesForStyle framingHost (styleNamed "A")
        onePolygon (BuildData.new 80000) = some
          { result := some (ResultNode.volumes
              (VolumesNode.lod
                (VolumesNode.matrixTransform { tag := 9 } (VolumesNode.group [{ tag := 1 }]))
                10 5000)),
            buildData := BuildData.new 80000, features := onePolygon,
            applied := [FilterUse.transform projectedMap.profile.srs false], created := [] } :=
      rfl
    rw [hrun] at ho
    rw [← Option.some.inj ho]
  refine ⟨o, ho, hc, hb, hp, ?_⟩
  rw [hv, hfeat]
  rfl


/-! ## The factory: `create`, `get`, `readObject`, `readNode` -/

theorem SourceMap.find_assign_self (m : SourceMap) (key : Int)
    (value : Option FeatureStencilModelSource) :
    SourceMap.find (SourceMap.assign m key value) key = some value := by
  induction m with
  | nil => simp [SourceMap.assign, SourceMap.find]
  | cons e rest ih =>
    obtain ⟨k, v⟩ := e
    by_cases hk : k = key
    · simp [SourceMap.assign, SourceMap.find, hk]
    · simp [SourceMap.assign, SourceMap.find, hk, ih]

theorem SourceMap.find_assign_ne (m : SourceMap) (key other : Int)
    (value : Option FeatureStencilModelSource) (hne : other ≠ key) :
    SourceMap.find (SourceMap.assign m key value) other = SourceMap.find m other := by
  induction m with
  | nil =>
    have hne2 : ¬ key = other := fun h => hne h.symm
    simp [SourceMap.assign, SourceMap.find, hne2]
  | cons e rest ih =>
    obtain ⟨k, v⟩ := e
    by_cases hk : k = key
    · subst hk
      have hne2 : ¬ k = other := fun h => hne h.symm
      simp [SourceMap.assign, SourceMap.find, hne2]
    · by_cases hko : k = other
      · subst hko
        simp [SourceMap.assign, SourceMap.find, hk]
      · simp [SourceMap.assign, SourceMap.find, hk, hko, ih]

theorem SourceMap.index_of_find (m : SourceMap) (key : Int)
    (v : Option FeatureStencilModelSource) (h : SourceMap.find m key = some v) :
    SourceMap.index m key = (v, m) := by
  simp [SourceMap.index, h]

theorem SourceMap.find_index_keep (m : SourceMap) (key other : Int)
    (v : Option FeatureStencilModelSource) (h : SourceMap.find m key = some v) :
    SourceMap.find (SourceMap.index m other).2 key = some v := by
  unfold SourceMap.index
  cases ho : SourceMap.find m other with
  | some w => simpa using h
  | none =>
    have hne : key ≠ other := by
      intro heq
      rw [heq, ho] at h
      exact Option.noConfusion h
    simp only
    rw [SourceMap.find_assign_ne m other key none hne]
    exact h

theorem addInt_eq_some (a b c : Int) (h : addInt a b = some c) : c = a + b := by
  unfold addInt at h
  by_cases hr : inIntRange (a + b) = true
  · simp [hr] at h
    exact h.symm
  · simp [hr] at h

theorem create_spec (f : FeatureStencilModelSourceFactory) (options : PluginOptions)
    (obj : FeatureStencilModelSource) (f1 : FeatureStencilModelSourceFactory)
    (h : f.create options = some (obj, f1)) :
    obj = FeatureStencilModelSource.new options f.renderBinStart f.sourceId ∧
    f1.renderBinStart = f.renderBinStart + 1000 ∧
    f1.sourceId = f.sourceId + 1 ∧
    f1.sourceMap = SourceMap.assign f.sourceMap f.sourceId (some obj) := by
  unfold FeatureStencilModelSourceFactory.create at h
  cases h1 : addInt f.renderBinStart 1000 with
  | none => simp [h1] at h
  | some r =>
    cases h2 : addInt f.sourceId 1 with
    | none => simp [h1, h2] at h
    | some s =>
      simp only [h1, h2, Option.some.injEq, Prod.mk.injEq] at h
      obtain ⟨ho, hf⟩ := h
      subst hf
      subst ho
      exact ⟨rfl, addInt_eq_some _ _ _ h1, addInt_eq_some _ _ _ h2, rfl⟩

/-- What every later call keeps: an entry registered under `key`, once the id counter
has passed `key`, stays as it is; the render-bin start never decreases. -/
theorem step_keeps (f f1 : FeatureStencilModelSourceFactory) (c : FactoryCall) (key : Int)
    (v : Option FeatureStencilModelSource) (base : Int)
    (hstep : f.step c = some f1)
    (hfind : SourceMap.find f.sourceMap key = some v) (hlt : key < f.sourceId)
    (hbase : base ≤ f.renderBinStart) :
    SourceMap.find f1.sourceMap key = some v ∧ key < f1.sourceId ∧
      base ≤ f1.renderBinStart := by
  have hcreate : ∀ options obj f2, f.create options = some (obj, f2) →
      SourceMap.find f2.sourceMap key = some v ∧ key < f2.sourceId ∧
        base ≤ f2.renderBinStart := by
    intro options obj f2 hc
    obtain ⟨_, hr, hs, hm⟩ := create_spec f options obj f2 hc
    refine ⟨?_, by omega, by omega⟩
    rw [hm, SourceMap.find_assign_ne _ _ _ _ (by omega)]
    exact hfind
  have hget : ∀ id, SourceMap.find (f.get id).2.sourceMap key = some v ∧
      key < (f.get id).2.sourceId ∧ base ≤ (f.get id).2.renderBinStart := by
    intro id
    exact ⟨SourceMap.find_index_keep f.sourceMap key id v hfind, hlt, hbase⟩
  cases c with
  | create options =>
    simp only [FeatureStencilModelSourceFactory.step, Option.map_eq_some'] at hstep
    obtain ⟨⟨obj, f2⟩, hc, hf⟩ := hstep
    simp only at hf
    subst hf
    exact hcreate options obj f2 hc
  | get id =>
    simp only [FeatureStencilModelSourceFactory.step, Option.some.injEq] at hstep
    subst hstep
    exact hget id
  | readObject file_name options =>
    simp only [FeatureStencilModelSourceFactory.step, Option.map_eq_some'] at hstep
    obtain ⟨⟨r, f2⟩, hc, hf⟩ := hstep
    simp only at hf
    subst hf
    unfold FeatureStencilModelSourceFactory.readObject at hc
    by_cases hacc : acceptsExtension (getLowerCaseFileExtension file_name.data) = true
    · simp only [hacc, Bool.not_true, Bool.false_eq_true, if_false] at hc
      cases hcr : f.create options with
      | none => simp [hcr] at hc
      | some p =>
        obtain ⟨obj, f3⟩ := p
        simp only [hcr, Option.some.injEq, Prod.mk.injEq] at hc
        obtain ⟨_, hf3⟩ := hc
        subst hf3
        exact hcreate options obj f3 hcr
    · simp only [hacc, Bool.not_false, if_true, Option.some.injEq, Prod.mk.injEq] at hc
      obtain ⟨_, hf2⟩ := hc
      subst hf2
      exact ⟨hfind, hlt, hbase⟩
  | readNode fileName =>
    simp only [FeatureStencilModelSourceFactory.step, Option.map_eq_some'] at hstep
    obtain ⟨⟨r, f2⟩, hc, hf⟩ := hstep
    simp only at hf
    subst hf
    unfold FeatureStencilModelSourceFactory.readNode at hc
    by_cases hacc : acceptsExtension (getLowerCaseFileExtension fileName.data) = true
    · simp only [hacc, Bool.not_true, Bool.false_eq_true, if_false] at hc
      cases hsc : sscanf_d (getNameLessExtension fileName.data) 0 with
      | none => simp [hsc] at hc
      | some id =>
        simp only [hsc, Option.some.injEq, Prod.mk.injEq] at hc
        obtain ⟨_, hf2⟩ := hc
        subst hf2
        exact hget id
    · simp only [hacc, Bool.not_false, if_true, Option.some.injEq, Prod.mk.injEq] at hc
      obtain ⟨_, hf2⟩ := hc
      subst hf2
      exact ⟨hfind, hlt, hbase⟩

theorem run_keeps (calls : List FactoryCall) (f f1 : FeatureStencilModelSourceFactory)
    (key : Int) (v : Option FeatureStencilModelSource) (base : Int)
    (hrun : f.run calls = some f1)
    (hfind : SourceMap.find f.sourceMap key = some v) (hlt : key < f.sourceId)
    (hbase : base ≤ f.renderBinStart) :
    SourceMap.find f1.sourceMap key = some v ∧ key < f1.sourceId ∧
      base ≤ f1.renderBinStart := by
  induction calls generalizing f with
  | nil =>
    simp only [FeatureStencilModelSourceFactory.run, Option.some.injEq] at hrun
    subst hrun
    exact ⟨hfind, hlt, hbase⟩
  | cons c cs ih =>
    unfold FeatureStencilModelSourceFactory.run at hrun
    cases hs : f.step c with
    | none => simp [hs] at hrun
    | some f2 =>
      simp only [hs] at hrun
      obtain ⟨h1, h2, h3⟩ := step_keeps f f2 c key v base hs hfind hlt hbase
      exact ih f2 hrun h1 h2 h3


/-! ## File names and `sscanf` -/

theorem takeWhile_append_stop {α : Type} (p : α → Bool) (l r : List α) (x : α)
    (hl : ∀ a ∈ l, p a = true) (hx : p x = false) :
    (l ++ x :: r).takeWhile p = l ∧ (l ++ x :: r).dropWhile p = x :: r := by
  induction l with
  | nil => simp [List.takeWhile, List.dropWhile, hx]
  | cons a t ih =>
    have ha := hl a (List.mem_cons_self a t)
    have ht := ih (fun b hb => hl b (List.mem_cons_of_mem a hb))
    simp [List.takeWhile, List.dropWhile, ha, ht.1, ht.2]

theorem pluginExtension_no_dot :
    ∀ a ∈ pluginExtension.reverse, (fun c : Char => decide (c ≠ '.')) a = true := by
  decide

theorem split_plugin_name (stem : List Char) :
    afterLastDot (stem ++ '.' :: pluginExtension) = pluginExtension ∧
    beforeLastDot (stem ++ '.' :: pluginExtension) = stem := by
  have hrev : (stem ++ '.' :: pluginExtension).reverse
      = pluginExtension.reverse ++ '.' :: stem.reverse := by simp
  have h := takeWhile_append_stop (fun c : Char => decide (c ≠ '.')) pluginExtension.reverse
    stem.reverse '.' pluginExtension_no_dot (by decide)
  unfold afterLastDot beforeLastDot
  rw [hrev, h.1, h.2]
  simp

theorem plugin_name_accepted (stem : List Char) :
    acceptsExtension (getLowerCaseFileExtension (stem ++ '.' :: pluginExtension)) = true ∧
    getNameLessExtension (stem ++ '.' :: pluginExtension) = stem := by
  have hs := split_plugin_name stem
  have hext : hasExtension (stem ++ '.' :: pluginExtension) = true := by
    unfold hasExtension
    rw [hs.1]
    have h1 : (stem ++ '.' :: pluginExtension).contains '.' = true := by simp
    have h2 : pluginExtension.any isPathSeparator = false := by decide
    rw [h1, h2]
    rfl
  unfold getLowerCaseFileExtension getNameLessExtension
  rw [hext, hs.1, hs.2]
  exact ⟨by decide, rfl⟩

theorem digitChar_spec (d : Nat) (hd : d < 10) :
    (digitChar d).isDigit = true ∧ (digitChar d).toNat - 48 = d ∧
      isSpace (digitChar d) = false ∧ digitChar d ≠ '-' ∧ digitChar d ≠ '+' := by
  interval_cases d <;> decide

theorem scanDigits_digits (ds : List Nat) (hds : ∀ d ∈ ds, d < 10) (acc : Nat) :
    scanDigits (ds.map digitChar) acc = ds.foldl (fun a d => a * 10 + d) acc := by
  induction ds generalizing acc with
  | nil => rfl
  | cons d rest ih =>
    obtain ⟨h1, h2, _⟩ := digitChar_spec d (hds d (List.mem_cons_self d rest))
    simp only [List.map_cons, scanDigits, h1, if_true, h2, List.foldl_cons]
    exact ih (fun e he => hds e (List.mem_cons_of_mem d he)) _

theorem foldr_digits (ds : List Nat) :
    ds.foldr (fun d a => a * 10 + d) 0 = Nat.ofDigits 10 ds := by
  induction ds with
  | nil => rfl
  | cons d rest ih =>
    simp only [List.foldr_cons, ih, Nat.ofDigits_cons]
    ring

theorem scanDigits_natDecimal (n : Nat) : scanDigits (natDecimal n) 0 = n := by
  unfold natDecimal
  by_cases hn : n = 0
  · subst hn
    decide
  · simp only [hn, if_false]
    rw [scanDigits_digits _ (fun d hd => Nat.digits_lt_base (by norm_num) (List.mem_reverse.mp hd)),
      List.foldl_reverse, foldr_digits, Nat.ofDigits_digits]

theorem natDecimal_head (n : Nat) :
    ∃ c cs, natDecimal n = c :: cs ∧ c.isDigit = true ∧ isSpace c = false ∧
      c ≠ '-' ∧ c ≠ '+' := by
  unfold natDecimal
  by_cases hn : n = 0
  · subst hn
    exact ⟨'0', [], rfl, by decide, by decide, by decide, by decide⟩
  · simp only [hn, if_false]
    have hne : (Nat.digits 10 n).reverse ≠ [] := by
      simpa using (Nat.digits_ne_nil_iff_ne_zero.mpr hn)
    cases hl : (Nat.digits 10 n).reverse with
    | nil => exact absurd hl hne
    | cons d rest =>
      have hd : d < 10 := by
        have hmem : d ∈ (Nat.digits 10 n).reverse := by rw [hl]; exact List.mem_cons_self d rest
        exact Nat.digits_lt_base (by norm_num) (List.mem_reverse.mp hmem)
      obtain ⟨h1, _, h3, h4, h5⟩ := digitChar_spec d hd
      exact ⟨digitChar d, rest.map digitChar, by simp, h1, h3, h4, h5⟩

theorem scanUnsigned_natDecimal (n : Nat) : scanUnsigned (natDecimal n) = some n := by
  obtain ⟨c, cs, hcs, hdig, _⟩ := natDecimal_head n
  have h := scanDigits_natDecimal n
  rw [hcs] at h ⊢
  simp [scanUnsigned, hdig, h]

theorem scanInt_intDecimal (k : Int) : scanInt (intDecimal k) = some k := by
  unfold intDecimal
  by_cases hk : k < 0
  · simp only [hk, if_true]
    have hsp : isSpace '-' = false := by decide
    simp only [scanInt, List.dropWhile, hsp, if_true, scanUnsigned_natDecimal, Option.map_some']
    simp only [Int.ofNat_eq_coe, Option.some.injEq]
    omega
  · simp only [hk, if_false]
    obtain ⟨c, cs, hcs, _, hsp, hm, hp⟩ := natDecimal_head k.natAbs
    have hu := scanUnsigned_natDecimal k.natAbs
    rw [hcs] at hu ⊢
    simp only [scanInt, List.dropWhile, hsp, hm, hp, if_false, hu, Option.map_some']
    simp only [Int.ofNat_eq_coe, Option.some.injEq]
    omega

theorem sscanf_d_intDecimal (k : Int) (target : Int) (hk : inIntRange k = true) :
    sscanf_d (intDecimal k) target = some k := by
  simp [sscanf_d, scanInt_intDecimal, hk]


/-! ## Claims about the factory -/

/-- C1 (evaluation at the failing input): on a fresh factory whose uninitialised
`_sourceId` holds 7, the first `create` hands the source render-bin base 80000 and
source id 7 and registers it under 7, while `RENDER_BIN_START + 7 * 1000` is 87000. -/
theorem create_base_ignores_sourceId :
    (((FeatureStencilModelSourceFactory.new 7).create (optionsOf plainConfig)).map
        (fun r => (r.1.renderBinStart, r.1.sourceId,
          (SourceMap.find r.2.sourceMap 7).map (Option.map (fun s => s.renderBinStart)))))
      = some (80000, 7, some (some 80000)) ∧
    RENDER_BIN_START + 7 * 1000 = 87000 := by
  constructor
  · rfl
  · rfl

theorem readNode_of_find (f : FeatureStencilModelSourceFactory) (k : Int)
    (v : Option FeatureStencilModelSource) (hk : inIntRange k = true)
    (hfind : SourceMap.find f.sourceMap k = some v) :
    f.readNode (nodeFileName k) = some (ReadResult.ofObject v, f) := by
  unfold FeatureStencilModelSourceFactory.readNode nodeFileName
  obtain ⟨hacc, hstem⟩ := plugin_name_accepted (intDecimal k)
  simp only [hacc, hstem, Bool.not_true, Bool.false_eq_true, if_false,
    sscanf_d_intDecimal k 0 hk, FeatureStencilModelSourceFactory.get,
    SourceMap.index_of_find _ _ _ hfind]

/-- C4: from any factory state (whose id counter holds an `int`), once `create` has
registered a source under id `k`, then after any further sequence of `create`, `get`,
`readObject` and `readNode` calls, `readNode` on `k.osgearth_model_feature_stencil`
(`k` in decimal) answers that same source and leaves the factory as it is. -/
theorem readNode_returns_registered (f f1 f2 : FeatureStencilModelSourceFactory)
    (options : PluginOptions) (obj : FeatureStencilModelSource) (calls : List FactoryCall)
    (hvalid : inIntRange f.sourceId = true)
    (hcreate : f.create options = some (obj, f1))
    (hrun : f1.run calls = some f2) :
    obj.sourceId = f.sourceId ∧
    SourceMap.find f1.sourceMap obj.sourceId = some (some obj) ∧
    f2.readNode (nodeFileName obj.sourceId) = some (ReadResult.ofObject (some obj), f2) := by
  obtain ⟨hobj, _, hs, hm⟩ := create_spec f options obj f1 hcreate
  have hid : obj.sourceId = f.sourceId := by rw [hobj]; rfl
  have hfind1 : SourceMap.find f1.sourceMap obj.sourceId = some (some obj) := by
    rw [hm, hid]
    exact SourceMap.find_assign_self _ _ _
  have hlt : obj.sourceId < f1.sourceId := by omega
  obtain ⟨hfind2, _, _⟩ :=
    run_keeps calls f1 f2 obj.sourceId (some obj) f1.renderBinStart hrun hfind1 hlt (le_refl _)
  exact ⟨hid, hfind1, readNode_of_find f2 obj.sourceId (some obj) (by rw [hid]; exact hvalid) hfind2⟩

/-- Witness for C4: the first source of a factory whose counter starts at 0, read back
after a `get` of an unknown id, a second `create` and a `readNode` of a bad name. -/
theorem readNode_returns_registered_witness :
    firstSource.sourceId = 0 ∧
    SourceMap.find factoryWithOne.sourceMap firstSource.sourceId = some (some firstSource) ∧
    ({ renderBinStart := 82000, sourceId := 2,
       sourceMap := [(0, some firstSource), (5, none),
         (1, some (FeatureStencilModelSource.new (optionsOf showVolumesConfig) 81000 1))] }
      : FeatureStencilModelSourceFactory).readNode (nodeFileName firstSource.sourceId)
      = some (ReadResult.ofObject (some firstSource),
          { renderBinStart := 82000, sourceId := 2,
            sourceMap := [(0, some firstSource), (5, none),
              (1, some (FeatureStencilModelSource.new (optionsOf showVolumesConfig) 81000 1))] }) :=
  readNode_returns_registered (FeatureStencilModelSourceFactory.new 0) factoryWithOne _
    (optionsOf plainConfig) firstSource
    [FactoryCall.get 5, FactoryCall.create (optionsOf showVolumesConfig),
      FactoryCall.readNode "abc.osgearth_model_feature_stencil"]
    rfl rfl rfl

/-- C5 (counterexample): in the factory that has registered one source under id 0,
`readNode` on `abc.osgearth_model_feature_stencil`, whose stem is no integer, answers
`FILE_LOADED` with that registered source and not `FILE_NOT_HANDLED`. -/
theorem readNode_bad_stem_returns_source :
    (FeatureStencilModelSourceFactory.new 0).create (optionsOf plainConfig)
      = some (firstSource, factoryWithOne) ∧
    scanInt (getNameLessExtension "abc.osgearth_model_feature_stencil".data) = none ∧
    factoryWithOne.readNode "abc.osgearth_model_feature_stencil"
      = some ({ status := ReadStatus.FILE_LOADED, object := some firstSource }, factoryWithOne) ∧
    (factoryWithOne.readNode "abc.osgearth_model_feature_stencil").map (fun r => r.1.status)
      ≠ some ReadStatus.FILE_NOT_HANDLED := by
  refine ⟨rfl, by decide, rfl, by decide⟩

/-- C5 (amended): `readNode` answers `FILE_NOT_HANDLED` exactly when the extension of the
file name is not the plugin extension (and then leaves the factory as it is); every
other answer has status `FILE_LOADED`. For a file name with the plugin extension whose
stem does not start with a decimal integer, it looks up source id 0: it answers
`FILE_LOADED` with the source registered under id 0, or with a null object when there
is none. -/
theorem readNode_unparsed_stem_reads_id_zero (f : FeatureStencilModelSourceFactory)
    (fileName : String) :
    (acceptsExtension (getLowerCaseFileExtension fileName.data) = false →
      f.readNode fileName = some (ReadResult.ofStatus ReadStatus.FILE_NOT_HANDLED, f)) ∧
    (∀ r f1, f.readNode fileName = some (r, f1) →
      (r.status = ReadStatus.FILE_NOT_HANDLED ↔
        acceptsExtension (getLowerCaseFileExtension fileName.data) = false) ∧
      (r.status = ReadStatus.FILE_LOADED ↔
        acceptsExtension (getLowerCaseFileExtension fileName.data) = true)) ∧
    (acceptsExtension (getLowerCaseFileExtension fileName.data) = true →
      scanInt (getNameLessExtension fileName.data) = none →
      ∃ r f1, f.readNode fileName = some (r, f1) ∧
        r.status = ReadStatus.FILE_LOADED ∧
        r.object = (SourceMap.find f.sourceMap 0).join ∧
        (r, f1) = (ReadResult.ofObject (f.get 0).1, (f.get 0).2)) := by
  refine ⟨?_, ?_, ?_⟩
  · intro hacc
    unfold FeatureStencilModelSourceFactory.readNode
    simp [hacc]
  · intro r f1 hread
    unfold FeatureStencilModelSourceFactory.readNode at hread
    by_cases hacc : acceptsExtension (getLowerCaseFileExtension fileName.data) = true
    · simp only [hacc, Bool.not_true, Bool.false_eq_true, if_false] at hread
      cases hsc : sscanf_d (getNameLessExtension fileName.data) 0 with
      | none => simp [hsc] at hread
      | some id =>
        simp only [hsc, Option.some.injEq, Prod.mk.injEq] at hread
        obtain ⟨hr, _⟩ := hread
        subst hr
        simp [ReadResult.ofObject, hacc]
    · simp only [hacc, Bool.not_false, if_true, Option.some.injEq, Prod.mk.injEq] at hread
      obtain ⟨hr, _⟩ := hread
      subst hr
      simp [ReadResult.ofStatus, hacc]
  · intro hacc hbad
    refine ⟨ReadResult.ofObject (f.get 0).1, (f.get 0).2, ?_, rfl, ?_, rfl⟩
    · unfold FeatureStencilModelSourceFactory.readNode
      simp [hacc, sscanf_d, hbad]
    · unfold FeatureStencilModelSourceFactory.get SourceMap.index ReadResult.ofObject
      cases hfind : SourceMap.find f.sourceMap 0 with
      | none => rfl
      | some v => rfl

/-- Witness for C5 (amended): the name `abc.osgearth_model_feature_stencil` on the
factory holding one source under id 0 is answered with that source, and the name
`abc.txt` with `FILE_NOT_HANDLED`. -/
theorem readNode_unparsed_stem_reads_id_zero_witness :
    (∃ r f1, factoryWithOne.readNode "abc.osgearth_model_feature_stencil" = some (r, f1) ∧
      r.status = ReadStatus.FILE_LOADED ∧
      r.object = (SourceMap.find factoryWithOne.sourceMap 0).join ∧
      (r, f1) = (ReadResult.ofObject (factoryWithOne.get 0).1, (factoryWithOne.get 0).2)) ∧
    factoryWithOne.readNode "abc.txt"
      = some (ReadResult.ofStatus ReadStatus.FILE_NOT_HANDLED, factoryWithOne) :=
  ⟨(readNode_unparsed_stem_reads_id_zero factoryWithOne
      "abc.osgearth_model_feature_stencil").2.2 (by decide) (by decide),
   (readNode_unparsed_stem_reads_id_zero factoryWithOne "abc.txt").1 (by decide)⟩

end FeatureStencil

namespace KML

/-! ## `KML_Placemark::build` -/

/-- C10: when the style lookup dereferences no null sheet and the group stack has a top
group, `build` appends to that group one or two children: a `PlacemarkNode`, exactly
one and added last, preceded by a `FeatureNode` exactly when the built geometry is
valid and its point count is not 1 (zero points included); the `FeatureNode` is draped
exactly when the style has no extrusion symbol and has an altitude symbol that clamps to
terrain. The rest of the stack is untouched. -/
theorem build_appends_placemark (env : Collaborators) (conf : Config) (cx : KMLContext)
    (top : Group) (rest : List Group) (style0 : Style)
    (hstack : cx.groupStack = top :: rest)
    (hstyle : resolveStyle conf cx = some style0) :
    ∃ cx1 added, KML_Placemark.build env conf cx = some cx1 ∧
      cx1.groupStack = { children := top.children ++ added } :: rest ∧
      (added.length = 1 ∨ added.length = 2) ∧
      (added.filter Node.isPlacemarkNode).length = 1 ∧
      added.getLast?.map Node.isPlacemarkNode = some true ∧
      ((∃ n ∈ added, n.isFeatureNode = true) ↔
        ∃ g, (env.geometryBuild conf cx style0).1 = some g ∧ g.size ≠ 1) ∧
      (added.length = 2 → added.head?.map Node.isFeatureNode = some true) ∧
      (∀ n ∈ added, n.isFeatureNode = true →
        (n.isDraped = true ↔
          (env.geometryBuild conf cx style0).2.extrusion = none ∧
          ∃ alt, (env.geometryBuild conf cx style0).2.altitude = some alt ∧
            alt.clamping = Clamping.CLAMP_TO_TERRAIN)) := by
  unfold KML_Placemark.build
  simp only [hstyle, hstack]
  generalize env.geometryBuild conf cx style0 = built
  obtain ⟨geom, style⟩ := built
  simp only
  cases geom with
  | none =>
    refine ⟨_, [Node.placemarkNode cx.mapNode (positionOf none) (iconURIOf env style0)
      (textOf conf) style], rfl, ?_, ?_, ?_, ?_, ?_, ?_, ?_⟩
    · simp [Group.addChild]
    · simp
    · simp [Node.isPlacemarkNode]
    · simp [Node.isPlacemarkNode]
    · simp [Node.isFeatureNode]
    · simp
    · simp [Node.isFeatureNode]
  | some g =>
    by_cases hsize : g.size = 1
    · refine ⟨_, [Node.placemarkNode cx.mapNode (positionOf (some g)) (iconURIOf env style0)
        (textOf conf) style], rfl, ?_, ?_, ?_, ?_, ?_, ?_, ?_⟩
      · simp [Group.addChild, hsize]
      · simp
      · simp [Node.isPlacemarkNode]
      · simp [Node.isPlacemarkNode]
      · simp [Node.isFeatureNode, hsize]
      · simp
      · simp [Node.isFeatureNode]
    · refine ⟨_, [Node.featureNode cx.mapNode g (drapedOf style) style,
        Node.placemarkNode cx.mapNode (positionOf (some g)) (iconURIOf env style0)
          (textOf conf) style], rfl, ?_, ?_, ?_, ?_, ?_, ?_, ?_⟩
      · simp [Group.addChild, hsize]
      · simp
      · simp [Node.isPlacemarkNode]
      · simp [Node.isPlacemarkNode]
      · simp [Node.isFeatureNode, hsize]
      · simp [Node.isFeatureNode]
      · intro n hn hf
        simp only [List.mem_cons, List.mem_singleton, List.not_mem_nil, or_false] at hn
        rcases hn with rfl | rfl
        · cases halt : style.altitude with
          | none => simp [Node.isDraped, drapedOf, halt]
          | some alt => simp [Node.isDraped, drapedOf, halt, Option.isNone_iff_eq_none]
        · simp [Node.isFeatureNode] at hf

/-- Witness for C10: a valid geometry with zero points gets a draped `FeatureNode`
followed by the `PlacemarkNode`. -/
theorem build_appends_placemark_witness :
    KML_Placemark.build emptyGeometryCollaborators emptyConfig oneGroupContext
      = some { oneGroupContext with groupStack :=
          [{ children :=
              [Node.featureNode { tag := 0 } { size := 0, boundsCenter := Vec3d.zero, tag := 0 }
                 true { Style.new with altitude := some { clamping := Clamping.CLAMP_TO_TERRAIN } },
               Node.placemarkNode { tag := 0 } Vec3d.zero URI.empty "Unnamed"
                 { Style.new with altitude := some { clamping := Clamping.CLAMP_TO_TERRAIN } }] }] } ∧
    ∃ cx1 added, KML_Placemark.build emptyGeometryCollaborators emptyConfig oneGroupContext
        = some cx1 ∧
      cx1.groupStack = { children := ([] : List Node) ++ added } :: [] ∧
      (added.length = 1 ∨ added.length = 2) ∧
      (added.filter Node.isPlacemarkNode).length = 1 :=
  ⟨rfl, by
    obtain ⟨cx1, added, h1, h2, h3, h4, _⟩ :=
      build_appends_placemark emptyGeometryCollaborators emptyConfig oneGroupContext
        { children := [] } [] Style.new rfl rfl
    exact ⟨cx1, added, h1, h2, h3, h4⟩⟩

end KML

namespace FeatureStencil

/-! ## The style grouper -/

theorem map_modify_of_eq {α β : Type} (h : α → β) (f : α → α) (hf : ∀ a, h (f a) = h a)
    (l : List α) (n : Nat) : (l.modify f n).map h = l.map h := by
  induction l generalizing n with
  | nil => simp
  | cons a t ih =>
    cases n with
    | zero => simp [hf]
    | succ m => simp [ih]

theorem filterMap_modify_of_eq {α β : Type} (h : α → Option β) (f : α → α)
    (hf : ∀ a, h (f a) = h a) (l : List α) (n : Nat) :
    (l.modify f n).filterMap h = l.filterMap h := by
  induction l generalizing n with
  | nil => simp
  | cons a t ih =>
    cases n with
    | zero => simp [List.filterMap_cons, hf]
    | succ m => simp [List.filterMap_cons, ih]

theorem addVolumesAt_names (groups : List (String × StencilVolumeNode)) (position : Nat)
    (node : VolumesNode) :
    (addVolumesAt groups position node).map (fun g => g.1) = groups.map (fun g => g.1) := by
  unfold addVolumesAt
  exact map_modify_of_eq (fun g : String × StencilVolumeNode => g.1)
    (fun g => (g.1, g.2.addVolumes node)) (fun _ => rfl) groups position

theorem addVolumesAt_bins (groups : List (String × StencilVolumeNode)) (position : Nat)
    (node : VolumesNode) :
    (addVolumesAt groups position node).filterMap (fun g => g.2.baseRenderBin)
      = groups.filterMap (fun g => g.2.baseRenderBin) := by
  unfold addVolumesAt
  exact filterMap_modify_of_eq (fun g : String × StencilVolumeNode => g.2.baseRenderBin)
    (fun g => (g.1, g.2.addVolumes node)) (fun _ => rfl) groups position

theorem findStyle_none_iff (styleName : String) (groups : List (String × StencilVolumeNode))
    (i : Nat) :
    BuildData.findStyle styleName groups i = none ↔ styleName ∉ groups.map (fun g => g.1) := by
  induction groups generalizing i with
  | nil => simp [BuildData.findStyle]
  | cons g rest ih =>
    by_cases hg : g.1 = styleName
    · simp [BuildData.findStyle, hg]
    · have hg2 : ¬ styleName = g.1 := fun h => hg h.symm
      simp [BuildData.findStyle, hg, hg2, ih]

/-- One call that produces volumes on a source that does not show volumes: a known
style name adds nothing and returns nil; a new one appends a group that takes the
current render bin, advances the counter and returns the new node. -/
theorem render_grouping (host : Host) (self : FeatureStencilModelSource) (style : Style)
    (features : FeatureList) (buildData : BuildData) (map : Map) (featureSource : FeatureSource)
    (hmap : self.map = some map) (hfs : self.featureSource = some featureSource)
    (hshow : self.showVolumes = false)
    (hvol : (buildVolumes host self map featureSource style features).isSome = true) :
    ∃ o, self.renderFeaturesForStyle host style features buildData = some o ∧
      (style.name ∈ buildData.styleNames →
        o.result = none ∧ o.buildData.styleNames = buildData.styleNames ∧
        o.buildData.assignedBins = buildData.assignedBins ∧
        o.buildData.renderBin = buildData.renderBin ∧ o.created = []) ∧
      (style.name ∉ buildData.styleNames →
        o.result = some (ResultNode.styleNode buildData.styleGroups.length) ∧
        o.buildData.styleNames = buildData.styleNames ++ [style.name] ∧
        o.buildData.assignedBins = buildData.assignedBins ++ [buildData.renderBin] ∧
        o.buildData.renderBin = host.nextFreeBin buildData.renderBin ∧
        o.created.length = 1) := by
  obtain ⟨v, hv⟩ := Option.isSome_iff_exists.mp hvol
  unfold FeatureStencilModelSource.renderFeaturesForStyle
  simp only [hmap, hfs, hv, hshow, Bool.false_eq_true, if_false]
  cases hn : buildData.getStyleNode style.name with
  | none =>
    have hnot : style.name ∉ buildData.styleNames :=
      (findStyle_none_iff style.name buildData.styleGroups 0).mp hn
    refine ⟨_, rfl, fun hin => absurd hin hnot, fun _ => ⟨rfl, ?_, ?_, rfl, rfl⟩⟩
    · simp [BuildData.styleNames, addVolumesAt_names]
    · simp [BuildData.assignedBins, addVolumesAt_bins, StencilVolumeNode.setBaseRenderBin,
        List.filterMap_append]
  | some p =>
    have hin : style.name ∈ buildData.styleNames := by
      by_contra hnot
      have := (findStyle_none_iff style.name buildData.styleGroups 0).mpr hnot
      unfold BuildData.getStyleNode at hn
      rw [this] at hn
      exact Option.noConfusion hn
    refine ⟨_, rfl, fun _ => ⟨rfl, ?_, ?_, rfl, rfl⟩, fun hnot => absurd hin hnot⟩
    · simp [BuildData.styleNames, addVolumesAt_names]
    · simp [BuildData.assignedBins, addVolumesAt_bins]

/-- Any call, whatever it produces: either the bins and the counter stay, or the current
counter value is appended to the bins and the counter moves to the next free bin. -/
theorem render_bins_step (host : Host) (self : FeatureStencilModelSource) (style : Style)
    (features : FeatureList) (buildData : BuildData) (o : Outcome)
    (ho : self.renderFeaturesForStyle host style features buildData = some o) :
    (o.buildData.assignedBins = buildData.assignedBins ∧
      o.buildData.renderBin = buildData.renderBin) ∨
    (o.buildData.assignedBins = buildData.assignedBins ++ [buildData.renderBin] ∧
      o.buildData.renderBin = host.nextFreeBin buildData.renderBin) := by
  unfold FeatureStencilModelSource.renderFeaturesForStyle at ho
  cases hm : self.map with
  | none => simp [hm] at ho
  | some map =>
    cases hf : self.featureSource with
    | none => simp [hm, hf] at ho
    | some fs =>
      simp only [hm, hf] at ho
      cases hv : buildVolumes host self map fs style features with
      | none =>
        simp only [hv, Option.some.injEq] at ho
        subst ho
        exact Or.inl ⟨rfl, rfl⟩
      | some v =>
        simp only [hv] at ho
        by_cases hs : self.showVolumes = true
        · simp only [hs, if_true, Option.some.injEq] at ho
          subst ho
          exact Or.inl ⟨rfl, rfl⟩
        · simp only [hs, Bool.false_eq_true, if_false] at ho
          cases hn : buildData.getStyleNode style.name with
          | none =>
            simp only [hn, Option.some.injEq] at ho
            subst ho
            refine Or.inr ⟨?_, rfl⟩
            simp [BuildData.assignedBins, addVolumesAt_bins, StencilVolumeNode.setBaseRenderBin,
              List.filterMap_append]
          | some p =>
            simp only [hn, Option.some.injEq] at ho
            subst ho
            refine Or.inl ⟨?_, rfl⟩
            simp [BuildData.assignedBins, addVolumesAt_bins]


/-! ## Style names over a sequence of calls -/

theorem finalSeen_prefix (ns seen : List String) : ∃ t, finalSeen seen ns = seen ++ t := by
  induction ns generalizing seen with
  | nil => exact ⟨[], by simp [finalSeen]⟩
  | cons n rest ih =>
    by_cases hn : n ∈ seen
    · simpa [finalSeen, hn] using ih seen
    · obtain ⟨t, ht⟩ := ih (seen ++ [n])
      exact ⟨n :: t, by simp [finalSeen, hn, ht]⟩

theorem finalSeen_mem (ns seen : List String) (x : String) :
    x ∈ finalSeen seen ns ↔ x ∈ seen ∨ x ∈ ns := by
  induction ns generalizing seen with
  | nil => simp [finalSeen]
  | cons n rest ih =>
    by_cases hn : n ∈ seen
    · simp only [finalSeen, hn, if_true, ih, List.mem_cons]
      constructor
      · rintro (h | h)
        · exact Or.inl h
        · exact Or.inr (Or.inr h)
      · rintro (h | h | h)
        · exact Or.inl h
        · exact Or.inl (h ▸ hn)
        · exact Or.inr h
    · simp only [finalSeen, hn, if_false, ih, List.mem_append, List.mem_singleton, List.mem_cons]
      tauto

theorem finalSeen_nodup (ns seen : List String) (hseen : seen.Nodup) :
    (finalSeen seen ns).Nodup := by
  induction ns generalizing seen with
  | nil => simpa [finalSeen] using hseen
  | cons n rest ih =>
    by_cases hn : n ∈ seen
    · simpa [finalSeen, hn] using ih seen hseen
    · simp only [finalSeen, hn, if_false]
      apply ih
      rw [List.nodup_append]
      refine ⟨hseen, List.nodup_singleton n, ?_⟩
      intro a ha hb
      rw [List.mem_singleton] at hb
      exact hn (hb ▸ ha)

theorem finalSeen_append (a b seen : List String) :
    finalSeen seen (a ++ b) = finalSeen (finalSeen seen a) b := by
  induction a generalizing seen with
  | nil => simp [finalSeen]
  | cons n rest ih =>
    by_cases hn : n ∈ seen
    · simp [finalSeen, hn, ih]
    · simp [finalSeen, hn, ih]

theorem finalSeen_length (ns seen : List String) (hseen : seen.Nodup) :
    (finalSeen seen ns).length = (seen ++ ns).dedup.length := by
  rw [← List.card_toFinset, ← List.toFinset_card_of_nodup (finalSeen_nodup ns seen hseen)]
  congr 1
  ext x
  simp [finalSeen_mem]

theorem firstSights_length (ns seen : List String) :
    (firstSights seen ns).length = ns.length := by
  induction ns generalizing seen with
  | nil => simp [firstSights]
  | cons n rest ih =>
    by_cases hn : n ∈ seen <;> simp [firstSights, hn, ih]

theorem firstSights_get (ns seen : List String) (i : Nat) (name : String)
    (hi : ns[i]? = some name) :
    (name ∈ seen ++ ns.take i → (firstSights seen ns)[i]? = some none) ∧
    (name ∉ seen ++ ns.take i →
      (firstSights seen ns)[i]? = some (some (finalSeen seen (ns.take i)).length)) := by
  induction ns generalizing seen i with
  | nil => simp at hi
  | cons n rest ih =>
    cases i with
    | zero =>
      simp only [List.getElem?_cons_zero, Option.some.injEq] at hi
      subst hi
      by_cases hn : n ∈ seen <;> simp [firstSights, finalSeen, hn]
    | succ j =>
      simp only [List.getElem?_cons_succ] at hi
      by_cases hn : n ∈ seen
      · obtain ⟨h1, h2⟩ := ih seen j hi
        simp only [firstSights, hn, if_true, List.getElem?_cons_succ, List.take_succ_cons,
          finalSeen, List.mem_append, List.mem_cons]
        constructor
        · rintro (h | h | h)
          · exact h1 (List.mem_append_left _ h)
          · exact h1 (List.mem_append_left _ (h ▸ hn))
          · exact h1 (List.mem_append_right _ h)
        · intro h
          apply h2
          intro hmem
          rw [List.mem_append] at hmem
          rcases hmem with hm | hm
          · exact h (Or.inl hm)
          · exact h (Or.inr (Or.inr hm))
      · obtain ⟨h1, h2⟩ := ih (seen ++ [n]) j hi
        simp only [firstSights, hn, if_false, List.getElem?_cons_succ, List.take_succ_cons,
          finalSeen]
        have hassoc : seen ++ n :: List.take j rest = (seen ++ [n]) ++ List.take j rest := by simp
        rw [hassoc]
        exact ⟨h1, h2⟩

theorem firstSights_count (ns seen : List String) :
    ((firstSights seen ns).filter Option.isSome).length + seen.length
      = (finalSeen seen ns).length := by
  induction ns generalizing seen with
  | nil => simp [firstSights, finalSeen]
  | cons n rest ih =>
    by_cases hn : n ∈ seen
    · simp [firstSights, finalSeen, hn, ih]
    · have := ih (seen ++ [n])
      simp only [List.length_append, List.length_singleton] at this
      simp only [firstSights, finalSeen, hn, if_false, List.filter_cons, Option.isSome_some,
        if_true, List.length_cons]
      omega

theorem finalSeen_position (ns seen : List String) (i : Nat) (name : String)
    (hi : ns[i]? = some name) (hnew : name ∉ seen ++ ns.take i) :
    (finalSeen seen ns)[(finalSeen seen (ns.take i)).length]? = some name := by
  have hlt : i < ns.length := by
    by_contra hge
    rw [List.getElem?_eq_none (by omega)] at hi
    exact Option.noConfusion hi
  have hdrop : ns.drop i = name :: ns.drop (i + 1) := by
    rw [List.drop_eq_getElem_cons hlt]
    congr 1
    rw [List.getElem?_eq_getElem hlt] at hi
    exact Option.some.inj hi
  have hsplit : ns = ns.take i ++ name :: ns.drop (i + 1) := by
    rw [← hdrop, List.take_append_drop]
  have hnot : name ∉ finalSeen seen (ns.take i) := by
    rw [finalSeen_mem]
    intro h
    exact hnew (List.mem_append.mpr h)
  have hfinal : finalSeen seen ns
      = finalSeen (finalSeen seen (ns.take i) ++ [name]) (ns.drop (i + 1)) := by
    conv_lhs => rw [hsplit]
    rw [finalSeen_append]
    simp [finalSeen, hnot]
  obtain ⟨t, ht⟩ := finalSeen_prefix (ns.drop (i + 1)) (finalSeen seen (ns.take i) ++ [name])
  rw [hfinal, ht, List.append_assoc, List.getElem?_append_right (le_refl _)]
  simp

theorem filter_isSome_map {α β : Type} (f : α → β) (l : List (Option α)) :
    ((l.map (Option.map f)).filter Option.isSome).length = (l.filter Option.isSome).length := by
  induction l with
  | nil => rfl
  | cons a t ih =>
    cases a with
    | none => simpa using ih
    | some x => simp [List.filter_cons, ih]

/-- A sequence of calls that all produce volumes, on a source that does not show volumes,
from any `BuildData`: the returned pointers and the final style names follow the
bookkeeping of first sights. -/
theorem renderAll_grouping (host : Host) (self : FeatureStencilModelSource) (map : Map)
    (featureSource : FeatureSource)
    (hmap : self.map = some map) (hfs : self.featureSource = some featureSource)
    (hshow : self.showVolumes = false)
    (calls : List (Style × FeatureList)) (buildData : BuildData)
    (hvol : ∀ c ∈ calls, (buildVolumes host self map featureSource c.1 c.2).isSome = true) :
    ∃ results bd, self.renderAll host calls buildData = some (results, bd) ∧
      results = (firstSights buildData.styleNames (calls.map (fun c => c.1.name))).map
        (Option.map ResultNode.styleNode) ∧
      bd.styleNames = finalSeen buildData.styleNames (calls.map (fun c => c.1.name)) := by
  induction calls generalizing buildData with
  | nil => exact ⟨[], buildData, rfl, by simp [firstSights], by simp [finalSeen]⟩
  | cons c cs ih =>
    obtain ⟨o, ho, hold, hnew⟩ := render_grouping host self c.1 c.2 buildData map featureSource
      hmap hfs hshow (hvol c (List.mem_cons_self c cs))
    obtain ⟨results, bd, hr, hres, hnames⟩ :=
      ih o.buildData (fun d hd => hvol d (List.mem_cons_of_mem c hd))
    refine ⟨o.result :: results, bd, ?_, ?_, ?_⟩
    · simp [FeatureStencilModelSource.renderAll, ho, hr]
    · by_cases hin : c.1.name ∈ buildData.styleNames
      · obtain ⟨h1, h2, _⟩ := hold hin
        rw [h2] at hres
        simp [firstSights, hin, h1, hres]
      · obtain ⟨h1, h2, _⟩ := hnew hin
        rw [h2] at hres
        have hlen : buildData.styleGroups.length = buildData.styleNames.length := by
          simp [BuildData.styleNames]
        simp [firstSights, hin, h1, hres, hlen]
    · by_cases hin : c.1.name ∈ buildData.styleNames
      · obtain ⟨_, h2, _⟩ := hold hin
        rw [h2] at hnames
        simp [finalSeen, hin, hnames]
      · obtain ⟨_, h2, _⟩ := hnew hin
        rw [h2] at hnames
        simp [finalSeen, hin, hnames]

/-- C3: for every sequence of `renderFeaturesForStyle` calls on the `BuildData` of
`createBuildData`, on a source with a map and a feature source that does not show
volumes, where every call produces a volume: the calls all return; the number of style
groups, and the number of non-nil results, equal the number of distinct style names;
a call whose style name did not occur in an earlier call returns the style node newly
appended for that name, and a call whose style name occurred before returns nil. -/
theorem style_grouper_first_sight (host : Host) (self : FeatureStencilModelSource) (map : Map)
    (featureSource : FeatureSource)
    (hmap : self.map = some map) (hfs : self.featureSource = some featureSource)
    (hshow : self.showVolumes = false)
    (calls : List (Style × FeatureList))
    (hvol : ∀ c ∈ calls, (buildVolumes host self map featureSource c.1 c.2).isSome = true) :
    ∃ results bd, self.renderAll host calls self.createBuildData = some (results, bd) ∧
      results.length = calls.length ∧
      bd.styleGroups.length = ((calls.map (fun c => c.1.name)).dedup).length ∧
      (results.filter Option.isSome).length = ((calls.map (fun c => c.1.name)).dedup).length ∧
      ∀ i name, (calls.map (fun c => c.1.name))[i]? = some name →
        (name ∉ (calls.map (fun c => c.1.name)).take i →
          results[i]? = some (some (ResultNode.styleNode
            (((calls.map (fun c => c.1.name)).take i).dedup).length)) ∧
          bd.styleNames[(((calls.map (fun c => c.1.name)).take i).dedup).length]? = some name) ∧
        (name ∈ (calls.map (fun c => c.1.name)).take i → results[i]? = some none) := by
  obtain ⟨results, bd, hr, hres, hnames⟩ := renderAll_grouping host self map featureSource
    hmap hfs hshow calls self.createBuildData hvol
  have hstart : self.createBuildData.styleNames = [] := rfl
  rw [hstart] at hres hnames
  have hlenNames : bd.styleGroups.length = bd.styleNames.length := by
    simp [BuildData.styleNames]
  have hfl := finalSeen_length (calls.map (fun c => c.1.name)) [] List.nodup_nil
  simp only [List.nil_append] at hfl
  refine ⟨results, bd, hr, ?_, ?_, ?_, ?_⟩
  · rw [hres, List.length_map, firstSights_length, List.length_map]
  · rw [hlenNames, hnames, hfl]
  · have hc := firstSights_count (calls.map (fun c => c.1.name)) []
    rw [hres, filter_isSome_map, ← hfl]
    simpa using hc
  · intro i name hi
    obtain ⟨h1, h2⟩ := firstSights_get (calls.map (fun c => c.1.name)) [] i name hi
    simp only [List.nil_append] at h1 h2
    have htl := finalSeen_length ((calls.map (fun c => c.1.name)).take i) [] List.nodup_nil
    simp only [List.nil_append] at htl
    constructor
    · intro hnew
      constructor
      · rw [hres, List.getElem?_map, h2 hnew, ← htl]
        rfl
      · rw [hnames, ← htl]
        exact finalSeen_position (calls.map (fun c => c.1.name)) [] i name hi (by simpa using hnew)
    · intro hold
      rw [hres, List.getElem?_map, h1 hold]
      rfl


/-- Witness for C3: the styles X, Y, X over the plain host give three results, two of
them non-nil, and two style groups. -/
theorem style_grouper_first_sight_witness :
    ∃ results bd,
      firstReady.renderAll plainHost (polygonCalls ["X", "Y", "X"])
        firstReady.createBuildData = some (results, bd) ∧
      results.length = 3 ∧ bd.styleGroups.length = 2 ∧
      (results.filter Option.isSome).length = 2 := by
  obtain ⟨results, bd, h1, h2, h3, h4, _⟩ :=
    style_grouper_first_sight plainHost firstReady projectedMap
      { featureProfile := { tag := 0 } } rfl rfl rfl (polygonCalls ["X", "Y", "X"])
      (by decide)
  exact ⟨results, bd, h1, h2, by rw [h3]; decide, by rw [h4]; decide⟩

/-! ## Render bins of different sources -/

theorem initialize_renderBinStart (self : FeatureStencilModelSource) (map : Map) :
    ( FeatureStencilModelSource.initialize self map).renderBinStart = self.renderBinStart := by
  unfold FeatureStencilModelSource.initialize
  by_cases h : self.extrusionDistance.isSet = true <;>
    by_cases hg : map.isGeocentric = true <;>
    by_cases hgeo : map.profile.srs.isGeographic = true <;>
    simp [h, hg, hgeo]

/-- Along any sequence of calls the counter never goes back, and every assigned bin lies
between the starting value and the counter, when `setBaseRenderBin` returns a bin above
the one it is given. -/
theorem renderAll_bins_bound (host : Host) (hhost : ∀ b, b < host.nextFreeBin b)
    (self : FeatureStencilModelSource) (calls : List (Style × FeatureList))
    (bd bd1 : BuildData) (results : List (Option ResultNode)) (base : Int)
    (hrun : self.renderAll host calls bd = some (results, bd1))
    (hbase : base ≤ bd.renderBin)
    (hbins : ∀ b ∈ bd.assignedBins, base ≤ b ∧ b < bd.renderBin) :
    base ≤ bd1.renderBin ∧ ∀ b ∈ bd1.assignedBins, base ≤ b ∧ b < bd1.renderBin := by
  induction calls generalizing bd results with
  | nil =>
    simp only [FeatureStencilModelSource.renderAll, Option.some.injEq, Prod.mk.injEq] at hrun
    obtain ⟨_, hbd⟩ := hrun
    subst hbd
    exact ⟨hbase, hbins⟩
  | cons c cs ih =>
    unfold FeatureStencilModelSource.renderAll at hrun
    cases ho : self.renderFeaturesForStyle host c.1 c.2 bd with
    | none => simp [ho] at hrun
    | some o =>
      simp only [ho] at hrun
      cases hr : FeatureStencilModelSource.renderAll host self cs o.buildData with
      | none => simp [hr] at hrun
      | some r =>
        simp only [hr, Option.some.injEq, Prod.mk.injEq] at hrun
        obtain ⟨_, hbd⟩ := hrun
        subst hbd
        have hnext := hhost bd.renderBin
        rcases render_bins_step host self c.1 c.2 bd o ho with ⟨hb, hrb⟩ | ⟨hb, hrb⟩
        · apply ih o.buildData r.1 (by rw [hr])
          · rw [hrb]; exact hbase
          · intro b hbmem
            rw [hb] at hbmem
            rw [hrb]
            exact hbins b hbmem
        · apply ih o.buildData r.1 (by rw [hr])
          · rw [hrb]; omega
          · intro b hbmem
            rw [hb, List.mem_append, List.mem_singleton] at hbmem
            rw [hrb]
            rcases hbmem with hm | hm
            · have := hbins b hm
              omega
            · omega

/-- C2 (amended): for a source `s1` created by a factory and a source `s2` created by a
later `create` of the same factory, the render bins assigned to style groups in a
`BuildData` of `s1` are disjoint from those assigned in a `BuildData` of `s2`, provided
the style node's `setBaseRenderBin` returns a bin above the one it is given and the
counter of the `BuildData` of `s1` has not advanced past `s1`'s base + 1000. -/
theorem render_bins_disjoint (host : Host) (hhost : ∀ b, b < host.nextFreeBin b)
    (f f1 f2 f3 : FeatureStencilModelSourceFactory) (options1 options2 : PluginOptions)
    (s1 s2 : FeatureStencilModelSource) (between : List FactoryCall)
    (hcreate1 : f.create options1 = some (s1, f1))
    (hbetween : f1.run between = some f2)
    (hcreate2 : f2.create options2 = some (s2, f3))
    (map1 map2 : Map) (calls1 calls2 : List (Style × FeatureList))
    (results1 results2 : List (Option ResultNode)) (bd1 bd2 : BuildData)
    (hrun1 : FeatureStencilModelSource.renderAll host
        ( FeatureStencilModelSource.initialize s1 map1) calls1
        ( FeatureStencilModelSource.initialize s1 map1).createBuildData = some (results1, bd1))
    (hrun2 : FeatureStencilModelSource.renderAll host
        ( FeatureStencilModelSource.initialize s2 map2) calls2
        ( FeatureStencilModelSource.initialize s2 map2).createBuildData = some (results2, bd2))
    (hlimit : bd1.renderBin ≤ s1.renderBinStart + 1000) :
    s1.renderBinStart + 1000 ≤ s2.renderBinStart ∧
    ∀ b, b ∈ bd1.assignedBins → b ∉ bd2.assignedBins := by
  obtain ⟨hobj1, hr1, hs1, hm1⟩ := create_spec f options1 s1 f1 hcreate1
  obtain ⟨hobj2, _, _, _⟩ := create_spec f2 options2 s2 f3 hcreate2
  have hbase1 : s1.renderBinStart = f.renderBinStart := by rw [hobj1]; rfl
  have hbase2 : s2.renderBinStart = f2.renderBinStart := by rw [hobj2]; rfl
  have hfind : SourceMap.find f1.sourceMap f.sourceId = some (some s1) := by
    rw [hm1]
    exact SourceMap.find_assign_self _ _ _
  obtain ⟨_, _, hmono⟩ := run_keeps between f1 f2 f.sourceId (some s1) f1.renderBinStart
    hbetween hfind (by omega) (le_refl _)
  have hstride : s1.renderBinStart + 1000 ≤ s2.renderBinStart := by omega
  have hb1 := renderAll_bins_bound host hhost ( FeatureStencilModelSource.initialize s1 map1) calls1
    ( FeatureStencilModelSource.initialize s1 map1).createBuildData bd1 results1
    s1.renderBinStart hrun1
    (by simp [FeatureStencilModelSource.createBuildData, BuildData.new, initialize_renderBinStart])
    (by simp [FeatureStencilModelSource.createBuildData, BuildData.new, BuildData.assignedBins])
  have hb2 := renderAll_bins_bound host hhost ( FeatureStencilModelSource.initialize s2 map2) calls2
    ( FeatureStencilModelSource.initialize s2 map2).createBuildData bd2 results2
    s2.renderBinStart hrun2
    (by simp [FeatureStencilModelSource.createBuildData, BuildData.new, initialize_renderBinStart])
    (by simp [FeatureStencilModelSource.createBuildData, BuildData.new, BuildData.assignedBins])
  refine ⟨hstride, fun b h1 h2 => ?_⟩
  have := hb1.2 b h1
  have := hb2.2 b h2
  omega

/-- Witness for C2 (amended): the first two sources of a factory whose counter starts
at 0, with styles X, Y, X on the first and A on the second. -/
theorem render_bins_disjoint_witness :
    ∃ results1 bd1 results2 bd2,
      firstReady.renderAll plainHost (polygonCalls ["X", "Y", "X"])
        firstReady.createBuildData = some (results1, bd1) ∧
      secondReady.renderAll plainHost (polygonCalls ["A"])
        secondReady.createBuildData = some (results2, bd2) ∧
      bd1.assignedBins = [80000, 80001] ∧ bd2.assignedBins = [81000] ∧
      firstSource.renderBinStart + 1000 ≤ secondSource.renderBinStart ∧
      ∀ b, b ∈ bd1.assignedBins → b ∉ bd2.assignedBins :=
  ⟨_, _, _, _, rfl, rfl, rfl, rfl,
    render_bins_disjoint plainHost (fun b => by show b < b + 1; omega)
      (FeatureStencilModelSourceFactory.new 0) factoryWithOne factoryWithOne _
      (optionsOf plainConfig) (optionsOf plainConfig) firstSource secondSource []
      rfl rfl rfl projectedMap projectedMap (polygonCalls ["X", "Y", "X"]) (polygonCalls ["A"])
      _ _ _ _ rfl rfl (by decide)⟩


/-- A sequence of calls with pairwise different, new style names that all produce
volumes, on a host whose style nodes take one bin each: the `i`-th call's group gets the
starting counter value plus `i`. -/
theorem renderAll_fresh_bins (host : Host) (hone : ∀ b, host.nextFreeBin b = b + 1)
    (self : FeatureStencilModelSource) (map : Map) (featureSource : FeatureSource)
    (hmap : self.map = some map) (hfs : self.featureSource = some featureSource)
    (hshow : self.showVolumes = false)
    (calls : List (Style × FeatureList)) (bd : BuildData)
    (hvol : ∀ c ∈ calls, (buildVolumes host self map featureSource c.1 c.2).isSome = true)
    (hnodup : (calls.map (fun c => c.1.name)).Nodup)
    (hfresh : ∀ c ∈ calls, c.1.name ∉ bd.styleNames) :
    ∃ results bd1, self.renderAll host calls bd = some (results, bd1) ∧
      (∀ b ∈ bd.assignedBins, b ∈ bd1.assignedBins) ∧
      ∀ i : Nat, i < calls.length → bd.renderBin + (i : Int) ∈ bd1.assignedBins := by
  induction calls generalizing bd with
  | nil => exact ⟨[], bd, rfl, fun b hb => hb, fun i hi => absurd hi (by simp)⟩
  | cons c cs ih =>
    obtain ⟨o, ho, _, hnew⟩ := render_grouping host self c.1 c.2 bd map featureSource
      hmap hfs hshow (hvol c (List.mem_cons_self c cs))
    obtain ⟨_, hnames, hbins, hrb, _⟩ := hnew (hfresh c (List.mem_cons_self c cs))
    rw [List.map_cons, List.nodup_cons] at hnodup
    obtain ⟨results, bd1, hr, hkeep, hidx⟩ := ih o.buildData
      (fun d hd => hvol d (List.mem_cons_of_mem c hd)) hnodup.2
      (fun d hd => by
        rw [hnames, List.mem_append, List.mem_singleton]
        rintro (h | h)
        · exact hfresh d (List.mem_cons_of_mem c hd) h
        · exact hnodup.1 (h ▸ List.mem_map_of_mem (fun c => c.1.name) hd))
    refine ⟨o.result :: results, bd1, ?_, ?_, ?_⟩
    · simp [FeatureStencilModelSource.renderAll, ho, hr]
    · intro b hb
      exact hkeep b (by rw [hbins]; exact List.mem_append_left _ hb)
    · intro i hi
      cases i with
      | zero =>
        simp only [Nat.cast_zero, add_zero]
        exact hkeep _ (by rw [hbins]; simp)
      | succ j =>
        have hj : j < cs.length := by simpa using hi
        have := hidx j hj
        rw [hrb, hone] at this
        have heq : bd.renderBin + ((j + 1 : Nat) : Int) = bd.renderBin + 1 + (j : Int) := by
          push_cast
          ring
        rw [heq]
        exact this

theorem distinctNames_nodup (n : Nat) : (distinctNames n).Nodup := by
  unfold distinctNames
  apply List.Nodup.map _ (List.nodup_range n)
  intro i j h
  have hlen := congrArg String.length h
  simpa [String.length] using hlen

/-- C2 (counterexample): a factory whose counter starts at 0 creates two sources, with
bases 80000 and 81000. With style nodes that take one bin each, 1001 calls with pairwise
different style names on the `BuildData` of the first source reach bin 81000, which is
also the bin of the first style group of the second source. -/
theorem render_bins_overlap :
    (FeatureStencilModelSourceFactory.new 0).create (optionsOf plainConfig)
      = some (firstSource, factoryWithOne) ∧
    (factoryWithOne.create (optionsOf plainConfig)).map Prod.fst = some secondSource ∧
    (∃ results bd,
      firstReady.renderAll plainHost
        (polygonCalls (distinctNames 1001))
        firstReady.createBuildData = some (results, bd) ∧
      (81000 : Int) ∈ bd.assignedBins) ∧
    (∃ results bd,
      secondReady.renderAll plainHost (polygonCalls ["A"])
        secondReady.createBuildData = some (results, bd) ∧
      (81000 : Int) ∈ bd.assignedBins) := by
  refine ⟨rfl, rfl, ?_, ⟨_, _, rfl, by decide⟩⟩
  obtain ⟨results, bd, hr, _, hidx⟩ := renderAll_fresh_bins plainHost (fun _ => rfl)
    firstReady projectedMap { featureProfile := { tag := 0 } }
    rfl rfl rfl (polygonCalls (distinctNames 1001))
    firstReady.createBuildData
    (by
      intro c hc
      simp only [polygonCalls, List.mem_map] at hc
      obtain ⟨n, _, rfl⟩ := hc
      rfl)
    (by
      have : (polygonCalls (distinctNames 1001)).map (fun c => c.1.name) = distinctNames 1001 := by
        simp [polygonCalls, styleNamed, Function.comp_def]
      rw [this]
      exact distinctNames_nodup 1001)
    (by
      intro c _
      simp [FeatureStencilModelSource.createBuildData, BuildData.new, BuildData.styleNames])
  refine ⟨results, bd, hr, ?_⟩
  have h := hidx 1000 (by simp [polygonCalls, distinctNames])
  have hstart : firstReady.createBuildData.renderBin = 80000 := rfl
  rw [hstart] at h
  norm_num at h
  exact h

end FeatureStencil
